import Mathlib

/-!
Verification of the 2048 grid engine from `src/lib.rs`.

The grid is the `datas: Vec<u32>` field: 16 unsigned 32-bit integers in
row-major order.  We embed it as a `List Nat` whose values are kept below
2^32; the one arithmetic operation that can overflow (`<<= 1` in
`Game::merge`) is embedded with an explicit `% 2^32`, and
`u32::saturating_add` is embedded as `satAdd`.

Loops are embedded as `List.foldl` over the exact index ranges of the
source (`for j in 0 - pos..4 - pos` becomes a fold over
`intRange (0 - pos) (4 - pos)`, etc.).  The `break` in the innermost scan
of `delete_zero` mutates nothing before it fires, so it is embedded as
`List.find?` over the same range.

Randomness (`rand::rng()` in `spawn_tile`) is embedded by passing the
outcome in: a list `perm` standing for the shuffled vector of empty-cell
indices, and a Bool `coin` standing for `rng.random_bool(0.9)` (`true`
gives 2, `false` gives 4).  Theorems about spawning hypothesise
`perm.Perm (emptyIndices g)`, i.e. that the oracle really is a shuffle of
the empty cells.  `nums[0]` on an empty vector panics in Rust, so
`spawn_tile` is `Option`-valued and returns `none` there; `save_best_score`
is file I/O with no effect on engine state and is not modelled.
-/

/-- `u32::MAX`. -/
def M32 : Nat := 2 ^ 32 - 1

/-- One past `u32::MAX`; values of type `u32` are the naturals `< W32`. -/
def W32 : Nat := 2 ^ 32

/-- `u32::saturating_add`. -/
def satAdd (a b : Nat) : Nat := min (a + b) M32

/-- Read a cell: `self.datas[n]`.  Out-of-range reads (which cannot occur
for the index ranges the source uses on a 16-cell grid) default to 0. -/
def gget (g : List Nat) (n : Nat) : Nat := g.getD n 0

/-- Write a cell: `self.datas[n] = v`. -/
def gset (g : List Nat) (n v : Nat) : List Nat := g.set n v

/-- `self.datas.swap(a, b)`. -/
def lswap (g : List Nat) (a b : Nat) : List Nat :=
  gset (gset g a (gget g b)) b (gget g a)

/-- `Game::transpose`: the six `swap` calls of the source, which realise
the 4×4 matrix transpose in row-major indexing (checked by the
`test_swap` test in `main.rs`). -/
def transpose (g : List Nat) : List Nat :=
  lswap (lswap (lswap (lswap (lswap (lswap g 1 4) 2 8) 3 12) 6 9) 7 13) 11 14

/-- The Rust half-open range `a..b` over `i32`, as a list of `Int`. -/
def intRange (a b : Int) : List Int :=
  (List.range (b - a).toNat).map (fun m : Nat => a + (m : Int))

/-- `(j.abs()) * 4 + i` — the flat index used throughout `delete_zero`
and `merge`: row `|j|`, column `i`. -/
def idx (j : Int) (i : Nat) : Nat := j.natAbs * 4 + i

/-- Body of the `j` loop of `Game::delete_zero`: if cell `(|j|, i)` is
empty, find the first non-empty cell among rows `j+1 .. 4-pos` of the
same column, pull it up, and set the moved flag. -/
def dzInner (pos : Int) (i : Nat) (j : Int) (s : List Nat × Bool) :
    List Nat × Bool :=
  if gget s.1 (idx j i) = 0 then
    match (intRange (j + 1) (4 - pos)).find?
        (fun k => gget s.1 (idx k i) ≠ 0) with
    | some k => (gset (gset s.1 (idx j i) (gget s.1 (idx k i))) (idx k i) 0, true)
    | none => s
  else s

/-- `Game::delete_zero`: the slide/compaction pass.  Returns the new grid
and the `flag` telling whether any tile moved. -/
def delete_zero (pos : Int) (g : List Nat) : List Nat × Bool :=
  (List.range 4).foldl
    (fun s i =>
      (intRange (0 - pos) (4 - pos)).foldl (fun s' j => dzInner pos i j s') s)
    (g, false)

/-- Body of the `j` loop of the merge pass of `Game::merge`.  State is
`(datas, score, best_score, flag2)`.  When cells `(|j|,i)` and
`(|j+1|,i)` hold equal non-zero values the first is doubled (`<<= 1`,
wrapping at 2^32), the doubled value is saturating-added to the score,
`best_score` is raised to the score if below it (the accompanying
`save_best_score()` call is file I/O, not engine state), and the second
cell is zeroed. -/
def mgInner (_pos : Int) (i : Nat) (j : Int) (s : List Nat × Nat × Nat × Bool) :
    List Nat × Nat × Nat × Bool :=
  if gget s.1 (idx j i) ≠ 0 ∧ gget s.1 (idx j i) = gget s.1 (idx (j + 1) i) then
    (gset (gset s.1 (idx j i) (gget s.1 (idx j i) * 2 % W32)) (idx (j + 1) i) 0,
     satAdd s.2.1 (gget s.1 (idx j i) * 2 % W32),
     if s.2.2.1 < satAdd s.2.1 (gget s.1 (idx j i) * 2 % W32) then
       satAdd s.2.1 (gget s.1 (idx j i) * 2 % W32)
     else s.2.2.1,
     true)
  else s

/-- The double loop of the merge pass of `Game::merge`
(`for i in 0..4 { for j in 0 - pos..3 - pos { ... } }`). -/
def mergePass (pos : Int) (s : List Nat × Nat × Nat × Bool) :
    List Nat × Nat × Nat × Bool :=
  (List.range 4).foldl
    (fun st i =>
      (intRange (0 - pos) (3 - pos)).foldl (fun st' j => mgInner pos i j st') st)
    s

/-- The engine state: the non-UI fields of `struct Game`
(`focus_handle` is a gpui handle, not engine state).  `new_tiles` keeps
the spawned indices as `Option` values exactly as the
`Vec<Option<usize>>` of the source does. -/
structure Game where
  score : Nat
  best_score : Nat
  datas : List Nat
  is_started : Bool
  is_game_over : Bool
  spawn_count : Nat
  new_tiles : List (Option Nat)
deriving DecidableEq, Repr

/-- `Game::merge`: optional transpose, compact, merge pairs, compact
again, optional transpose back; returns the updated state and
`flag1 | flag2`. -/
def Game.merge (s : Game) (dir : Nat) (pos : Int) : Game × Bool :=
  let g0 := if dir = 1 then transpose s.datas else s.datas
  let d1 := delete_zero pos g0
  let m := mergePass pos (d1.1, s.score, s.best_score, false)
  let d2 := delete_zero pos m.1
  let g4 := if dir = 1 then transpose d2.1 else d2.1
  ({ s with datas := g4, score := m.2.1, best_score := m.2.2.1 },
   d1.2 || m.2.2.2)

/-- The normalised grid `Game::merge` works on: transposed for
horizontal moves. -/
def normG (s : Game) (dir : Nat) : List Nat :=
  if dir = 1 then transpose s.datas else s.datas

/-- The first `delete_zero` call inside `Game::merge`. -/
def stage1 (s : Game) (dir : Nat) (pos : Int) : List Nat × Bool :=
  delete_zero pos (normG s dir)

/-- The merge pass inside `Game::merge`. -/
def stage2 (s : Game) (dir : Nat) (pos : Int) : List Nat × Nat × Nat × Bool :=
  mergePass pos ((stage1 s dir pos).1, s.score, s.best_score, false)

/-- The second `delete_zero` call inside `Game::merge`. -/
def stage3 (s : Game) (dir : Nat) (pos : Int) : List Nat × Bool :=
  delete_zero pos (stage2 s dir pos).1

/-- `Game::check_fail`: `true` iff the grid has no zero cell and the loop
over all 16 cells finds no equal right- or down-neighbour.  The early
`return false` of the source on the first offending cell is embedded as
`List.all` over the same range. -/
def check_fail (g : List Nat) : Bool :=
  if g.countP (fun x => x = 0) ≠ 0 then false
  else
    (List.range 16).all fun i =>
      decide (¬(i % 4 < 3 ∧ gget g i = gget g (i + 1)) ∧
              ¬(i / 4 < 3 ∧ gget g i = gget g (i + 4)))

/-- The `nums` vector of `Game::spawn_tile` before shuffling: the indices
of the empty cells, in increasing order. -/
def emptyIndices (g : List Nat) : List Nat :=
  (List.range 16).filter (fun i => gget g i = 0)

/-- `Game::spawn_tile`.  `perm` is the shuffled empty-index vector and
`coin` the Bernoulli draw (`true` ↦ 2 with probability 0.9, `false` ↦ 4);
theorems hypothesise `perm.Perm (emptyIndices s.datas)`.  `nums[0]`
panics when `nums` is empty, embedded as `none`. -/
def Game.spawn_tile (s : Game) (perm : List Nat) (coin : Bool) : Option Game :=
  match perm with
  | [] => none
  | i :: _ =>
      some { s with
        datas := gset s.datas i (if coin then 2 else 4),
        spawn_count := s.spawn_count + 1,
        new_tiles := s.new_tiles ++ [some i] }

/-- An outcome of the random source for one spawn. -/
abbrev Oracle := List Nat × Bool

/-- The shared shape of the four key handlers
(`move_up`/`move_left`/`move_down`/`move_right`): ignore the key unless
started, clear `new_tiles`, merge, spawn only if something moved, then
run the game-over check. -/
def Game.moveStep (s : Game) (dir : Nat) (pos : Int) (o : Oracle) :
    Option Game :=
  if s.is_started = false then some s
  else
    (if (({ s with new_tiles := [] } : Game).merge dir pos).2 then
        (({ s with new_tiles := [] } : Game).merge dir pos).1.spawn_tile o.1 o.2
      else some (({ s with new_tiles := [] } : Game).merge dir pos).1).map
      fun s2 =>
        if check_fail s2.datas then
          { s2 with is_started := false, is_game_over := true }
        else s2

/-- `Game::move_up` (`self.merge(0, 0)`). -/
def Game.move_up (s : Game) (o : Oracle) : Option Game := s.moveStep 0 0 o

/-- `Game::move_left` (`self.merge(1, 0)`). -/
def Game.move_left (s : Game) (o : Oracle) : Option Game := s.moveStep 1 0 o

/-- `Game::move_down` (`self.merge(0, 3)`). -/
def Game.move_down (s : Game) (o : Oracle) : Option Game := s.moveStep 0 3 o

/-- `Game::move_right` (`self.merge(1, 3)`). -/
def Game.move_right (s : Game) (o : Oracle) : Option Game := s.moveStep 1 3 o

/-- `Game::new_game`: reset score, set started, clear `new_tiles`, zero
the grid, clear game-over, then spawn twice. -/
def Game.new_game (s : Game) (o1 o2 : Oracle) : Option Game :=
  (Game.spawn_tile
    { s with
      score := 0
      is_started := true
      new_tiles := []
      datas := List.replicate 16 0
      is_game_over := false }
    o1.1 o1.2).bind fun s1 => s1.spawn_tile o2.1 o2.2

/-- The state `Game::new` builds (modulo the UI focus handle): the best
score `b` is whatever was parsed from the config file, everything else is
zeroed. -/
def Game.init (b : Nat) : Game :=
  { score := 0, best_score := b, datas := List.replicate 16 0,
    is_started := false, is_game_over := false, spawn_count := 0,
    new_tiles := [] }

/-- The four directions, as dispatched by the key bindings. -/
inductive Dir | up | down | left | right
deriving DecidableEq

/-- The `(dir, pos)` arguments each handler passes to `Game::merge`. -/
def dirDP : Dir → Nat × Int
  | .up => (0, 0)
  | .down => (0, 3)
  | .left => (1, 0)
  | .right => (1, 3)

/-- Number of empty cells among the 16 board positions. -/
def Z (g : List Nat) : Nat :=
  ∑ n ∈ Finset.range 16, if gget g n = 0 then 1 else 0

/-- Total value on the board: the sum of the 16 cell values (zeros
contribute nothing, so this is the sum of all non-zero tile values). -/
def S16 (g : List Nat) : Nat := ∑ n ∈ Finset.range 16, gget g n

/-- Weight of a cell for the sliding potential: its row distance from the
target row of the pass (`pos = 0` targets row 0, `pos = 3` targets row 3). -/
def wgt (pos : Int) (n : Nat) : Nat := if pos = 0 then n / 4 else 3 - n / 4

/-- Sliding potential: total weight of the occupied cells.  Every cell
mutation performed by `delete_zero` or by the merge pass moves weight
strictly toward the target row, so the potential strictly decreases on
every mutation and is otherwise unchanged. -/
def pot (pos : Int) (g : List Nat) : Nat :=
  ∑ n ∈ Finset.range 16, if gget g n ≠ 0 then wgt pos n else 0

/-- Read a cell of a single extracted column. -/
def cget (c : List Nat) (r : Nat) : Nat := c.getD r 0

/-- Column `i` of the grid, top to bottom. -/
def colOf (g : List Nat) (i : Nat) : List Nat :=
  [gget g i, gget g (4 + i), gget g (8 + i), gget g (12 + i)]

/-- Rebuild a 16-cell grid from four columns. -/
def ofCols (c0 c1 c2 c3 : List Nat) : List Nat :=
  [cget c0 0, cget c1 0, cget c2 0, cget c3 0,
   cget c0 1, cget c1 1, cget c2 1, cget c3 1,
   cget c0 2, cget c1 2, cget c2 2, cget c3 2,
   cget c0 3, cget c1 3, cget c2 3, cget c3 3]

/-- `dzInner` restricted to one extracted column (row `r` of column `i`
is entry `r` of the column list). -/
def dzColInner (pos : Int) (j : Int) (s : List Nat × Bool) : List Nat × Bool :=
  if cget s.1 j.natAbs = 0 then
    match (intRange (j + 1) (4 - pos)).find?
        (fun k => cget s.1 k.natAbs ≠ 0) with
    | some k => ((s.1.set j.natAbs (cget s.1 k.natAbs)).set k.natAbs 0, true)
    | none => s
  else s

/-- The `j` loop of `delete_zero` on one extracted column. -/
def dzCol (pos : Int) (s : List Nat × Bool) : List Nat × Bool :=
  (intRange (0 - pos) (4 - pos)).foldl (fun st j => dzColInner pos j st) s

/-- `mgInner` restricted to one extracted column. -/
def mgColInner (j : Int) (s : List Nat × Nat × Nat × Bool) :
    List Nat × Nat × Nat × Bool :=
  if cget s.1 j.natAbs ≠ 0 ∧ cget s.1 j.natAbs = cget s.1 (j + 1).natAbs then
    ((s.1.set j.natAbs (cget s.1 j.natAbs * 2 % W32)).set (j + 1).natAbs 0,
     satAdd s.2.1 (cget s.1 j.natAbs * 2 % W32),
     if s.2.2.1 < satAdd s.2.1 (cget s.1 j.natAbs * 2 % W32) then
       satAdd s.2.1 (cget s.1 j.natAbs * 2 % W32)
     else s.2.2.1,
     true)
  else s

/-- The `j` loop of the merge pass on one extracted column. -/
def mgCol (pos : Int) (s : List Nat × Nat × Nat × Bool) :
    List Nat × Nat × Nat × Bool :=
  (intRange (0 - pos) (3 - pos)).foldl (fun st j => mgColInner j st) s

/-- Specification slide (spec section 4.1, step 2): keep the non-zero
values, in order, at the target end of the line and pad with zeros. -/
def slideSpec (l : List Nat) : List Nat :=
  l.filter (fun x => x ≠ 0) ++
    List.replicate (l.length - (l.filter (fun x => x ≠ 0)).length) 0

/-- Specification merge (spec section 4.1, step 3), written so that each
cell takes part in at most one merge: scan the line from the target end;
an equal non-zero adjacent pair becomes (doubled value, 0) and the scan
resumes after BOTH cells of the pair, so a tile created by a merge is
never merged again in the same move and no output tile combines more
than two input tiles.  The second component lists the created (doubled)
values; their total is the score delta of the move. -/
def mergeSpec : List Nat → List Nat × List Nat
  | a :: b :: rest =>
    if a ≠ 0 ∧ a = b then
      (a * 2 % W32 :: 0 :: (mergeSpec rest).1, a * 2 % W32 :: (mergeSpec rest).2)
    else
      (a :: (mergeSpec (b :: rest)).1, (mergeSpec (b :: rest)).2)
  | l => (l, [])

/-- One whole line of a move per the spec: slide, merge once per pair,
slide again; also returns the created values. -/
def specLineF (l : List Nat) : List Nat × List Nat :=
  (slideSpec (mergeSpec (slideSpec l)).1, (mergeSpec (slideSpec l)).2)

/-- The spec line transform applied to a column in the direction given by
`pos` (`pos = 0`: target is the top, `pos = 3`: target is the bottom, so
the column is processed reversed). -/
def specColApply (pos : Int) (c : List Nat) : List Nat :=
  if pos = 0 then (specLineF c).1 else ((specLineF c.reverse).1).reverse

/-- The created (merged) values of one column, target end first. -/
def createdCol (pos : Int) (c : List Nat) : List Nat :=
  if pos = 0 then (specLineF c).2 else (specLineF c.reverse).2

/-- Specification of the whole grid transform of `Game::merge`:
normalize by transposing for horizontal moves, process every column as
one line, denormalize. -/
def specMoveDatas (dir : Nat) (pos : Int) (g : List Nat) : List Nat :=
  let h := if dir = 1 then transpose g else g
  let g' := ofCols (specColApply pos (colOf h 0)) (specColApply pos (colOf h 1))
      (specColApply pos (colOf h 2)) (specColApply pos (colOf h 3))
  if dir = 1 then transpose g' else g'

/-- Total of the values created by merges in one move (the score delta
of the spec). -/
def createdTotal (dir : Nat) (pos : Int) (g : List Nat) : Nat :=
  let h := if dir = 1 then transpose g else g
  (createdCol pos (colOf h 0)).sum + (createdCol pos (colOf h 1)).sum +
    (createdCol pos (colOf h 2)).sum + (createdCol pos (colOf h 3)).sum

/-- Fold the per-merge-event score/best updates of the source over a list
of created values: saturating-add each value to the score, raising the
best score whenever the score passes it. -/
def scbsFold (p : Nat × Nat) (cs : List Nat) : Nat × Nat :=
  cs.foldl (fun q v =>
    let s := satAdd q.1 v
    (s, if q.2 < s then s else q.2)) p

/-- Spec terminal predicate: no empty cell, and no cell equals its right
neighbour (when not in the last column) or its lower neighbour (when not
in the last row). -/
def TerminalP (g : List Nat) : Prop :=
  (∀ i < 16, gget g i ≠ 0) ∧
  (∀ i < 16, (i % 4 < 3 → gget g i ≠ gget g (i + 1)) ∧
             (i / 4 < 3 → gget g i ≠ gget g (i + 4)))

instance (g : List Nat) : Decidable (TerminalP g) := by
  unfold TerminalP
  infer_instance

/-- Data-model invariant (spec section 3): the grid has exactly 16 cells
and every non-zero cell value is a power of two that is at least 2. -/
def ValidGrid (g : List Nat) : Prop :=
  g.length = 16 ∧ ∀ v ∈ g, v = 0 ∨ ∃ k, 1 ≤ k ∧ v = 2 ^ k

/-- One engine transition: a new game or one of the four key handlers,
for some outcome of the random source. -/
inductive Step : Game → Game → Prop
  | newg (s : Game) (o1 o2 : Oracle) (s' : Game) :
      s.new_game o1 o2 = some s' → Step s s'
  | up (s : Game) (o : Oracle) (s' : Game) :
      s.move_up o = some s' → Step s s'
  | down (s : Game) (o : Oracle) (s' : Game) :
      s.move_down o = some s' → Step s s'
  | left (s : Game) (o : Oracle) (s' : Game) :
      s.move_left o = some s' → Step s s'
  | right (s : Game) (o : Oracle) (s' : Game) :
      s.move_right o = some s' → Step s s'

/-- States reachable from the state `Game::new` builds, where `b` is the
best score loaded from the config file. -/
def Reachable (b : Nat) (s : Game) : Prop :=
  Relation.ReflTransGen Step (Game.init b) s

/-! ### Generic helpers -/

theorem foldl_inv {α β : Type} (P : β → Prop) (f : β → α → β) :
    ∀ (l : List α) (b : β), P b → (∀ b' a, a ∈ l → P b' → P (f b' a)) →
      P (l.foldl f b)
  | [], _, hb, _ => hb
  | a :: l, b, hb, hstep =>
    foldl_inv P f l (f b a) (hstep b a (List.mem_cons_self a l)
      hb) (fun b' a' ha' => hstep b' a' (List.mem_cons_of_mem a ha'))

theorem length_gset (g : List Nat) (n v : Nat) :
    (gset g n v).length = g.length := by
  simp [gset]

theorem gget_gset_self {g : List Nat} {n : Nat} (h : n < g.length) (v : Nat) :
    gget (gset g n v) n = v := by
  simp [gget, gset, List.getD_eq_getElem?_getD, List.getElem?_set_self h]

theorem gget_gset_ne {g : List Nat} {m n : Nat} (h : n ≠ m) (v : Nat) :
    gget (gset g n v) m = gget g m := by
  simp [gget, gset, List.getD_eq_getElem?_getD, List.getElem?_set_ne h]

theorem gset_oob {g : List Nat} {n : Nat} (h : g.length ≤ n) (v : Nat) :
    gset g n v = g := List.set_eq_of_length_le h

theorem gget_oob {g : List Nat} {n : Nat} (h : g.length ≤ n) : gget g n = 0 := by
  simp [gget, List.getD_eq_getElem?_getD, List.getElem?_eq_none h]

theorem gget_lt {g : List Nat} {n : Nat} (h : n < g.length) : gget g n = g[n] := by
  simp [gget, List.getD_eq_getElem?_getD, List.getElem?_eq_getElem h]

theorem gget_mem_or_zero (g : List Nat) (n : Nat) :
    gget g n ∈ g ∨ gget g n = 0 := by
  by_cases h : n < g.length
  · left
    rw [gget_lt h]
    exact List.getElem_mem h
  · right
    exact gget_oob (le_of_not_lt h)

theorem mem_intRange {k a b : Int} : k ∈ intRange a b ↔ a ≤ k ∧ k < b := by
  constructor
  · intro h
    simp only [intRange, List.mem_map, List.mem_range] at h
    obtain ⟨m, hm, rfl⟩ := h
    omega
  · intro h
    simp only [intRange, List.mem_map, List.mem_range]
    exact ⟨(k - a).toNat, by omega, by omega⟩

theorem exists_cons_of_length_succ {g : List Nat} {n : Nat}
    (h : g.length = n + 1) : ∃ x t, g = x :: t ∧ t.length = n := by
  cases g with
  | nil => simp at h
  | cons x t => exact ⟨x, t, rfl, by simpa using h⟩

theorem grid_explicit {g : List Nat} (h : g.length = 16) :
    ∃ a0 a1 a2 a3 a4 a5 a6 a7 a8 a9 a10 a11 a12 a13 a14 a15,
      g = [a0, a1, a2, a3, a4, a5, a6, a7, a8, a9, a10, a11, a12, a13, a14, a15] := by
  obtain ⟨a0, g0, rfl, h0⟩ := exists_cons_of_length_succ h
  obtain ⟨a1, g1, rfl, h1⟩ := exists_cons_of_length_succ h0
  obtain ⟨a2, g2, rfl, h2⟩ := exists_cons_of_length_succ h1
  obtain ⟨a3, g3, rfl, h3⟩ := exists_cons_of_length_succ h2
  obtain ⟨a4, g4, rfl, h4⟩ := exists_cons_of_length_succ h3
  obtain ⟨a5, g5, rfl, h5⟩ := exists_cons_of_length_succ h4
  obtain ⟨a6, g6, rfl, h6⟩ := exists_cons_of_length_succ h5
  obtain ⟨a7, g7, rfl, h7⟩ := exists_cons_of_length_succ h6
  obtain ⟨a8, g8, rfl, h8⟩ := exists_cons_of_length_succ h7
  obtain ⟨a9, g9, rfl, h9⟩ := exists_cons_of_length_succ h8
  obtain ⟨a10, g10, rfl, h10⟩ := exists_cons_of_length_succ h9
  obtain ⟨a11, g11, rfl, h11⟩ := exists_cons_of_length_succ h10
  obtain ⟨a12, g12, rfl, h12⟩ := exists_cons_of_length_succ h11
  obtain ⟨a13, g13, rfl, h13⟩ := exists_cons_of_length_succ h12
  obtain ⟨a14, g14, rfl, h14⟩ := exists_cons_of_length_succ h13
  obtain ⟨a15, g15, rfl, h15⟩ := exists_cons_of_length_succ h14
  rw [List.length_eq_zero] at h15
  subst h15
  exact ⟨a0, a1, a2, a3, a4, a5, a6, a7, a8, a9, a10, a11, a12, a13, a14, a15, rfl⟩

theorem col_explicit {c : List Nat} (h : c.length = 4) :
    ∃ x0 x1 x2 x3, c = [x0, x1, x2, x3] := by
  obtain ⟨x0, c0, rfl, h0⟩ := exists_cons_of_length_succ h
  obtain ⟨x1, c1, rfl, h1⟩ := exists_cons_of_length_succ h0
  obtain ⟨x2, c2, rfl, h2⟩ := exists_cons_of_length_succ h1
  obtain ⟨x3, c3, rfl, h3⟩ := exists_cons_of_length_succ h2
  rw [List.length_eq_zero] at h3
  subst h3
  exact ⟨x0, x1, x2, x3, rfl⟩

theorem transpose_explicit (a0 a1 a2 a3 a4 a5 a6 a7 a8 a9 a10 a11 a12 a13 a14 a15 : Nat) :
    transpose [a0, a1, a2, a3, a4, a5, a6, a7, a8, a9, a10, a11, a12, a13, a14, a15] =
      [a0, a4, a8, a12, a1, a5, a9, a13, a2, a6, a10, a14, a3, a7, a11, a15] := by
  simp [transpose, lswap, gget, gset]

theorem transpose_length {g : List Nat} : (transpose g).length = g.length := by
  simp [transpose, lswap, length_gset]

theorem transpose_transpose {g : List Nat} (h : g.length = 16) :
    transpose (transpose g) = g := by
  obtain ⟨a0, a1, a2, a3, a4, a5, a6, a7, a8, a9, a10, a11, a12, a13, a14, a15, rfl⟩ :=
    grid_explicit h
  rw [transpose_explicit, transpose_explicit]

/-! ### Index arithmetic for the loop ranges -/

theorem dz_move_facts {pos j k : Int} {i : Nat} (hpos : pos = 0 ∨ pos = 3)
    (hi : i < 4) (hj : j ∈ intRange (0 - pos) (4 - pos))
    (hk : k ∈ intRange (j + 1) (4 - pos)) :
    idx j i < 16 ∧ idx k i < 16 ∧ idx j i ≠ idx k i ∧
      wgt pos (idx j i) < wgt pos (idx k i) := by
  rw [mem_intRange] at hj hk
  unfold wgt idx
  rcases hpos with rfl | rfl <;> simp <;> omega

theorem mg_move_facts {pos j : Int} {i : Nat} (hpos : pos = 0 ∨ pos = 3)
    (hi : i < 4) (hj : j ∈ intRange (0 - pos) (3 - pos)) :
    idx j i < 16 ∧ idx (j + 1) i < 16 ∧ idx j i ≠ idx (j + 1) i ∧
      wgt pos (idx j i) < wgt pos (idx (j + 1) i) ∧
      1 ≤ wgt pos (idx (j + 1) i) := by
  rw [mem_intRange] at hj
  unfold wgt idx
  rcases hpos with rfl | rfl <;> simp <;> omega

/-! ### Cell updates and the two cell-weight sums -/

theorem sumPhi_gset (φ : Nat → Nat → Nat) {g : List Nat} {n : Nat}
    (h16 : g.length = 16) (hn : n < 16) (v : Nat) :
    (∑ m ∈ Finset.range 16, φ m (gget (gset g n v) m)) + φ n (gget g n) =
      (∑ m ∈ Finset.range 16, φ m (gget g m)) + φ n v := by
  have hmem : n ∈ Finset.range 16 := Finset.mem_range.mpr hn
  rw [← Finset.sum_erase_add (Finset.range 16)
        (fun m => φ m (gget (gset g n v) m)) hmem,
      ← Finset.sum_erase_add (Finset.range 16) (fun m => φ m (gget g m)) hmem]
  have hself : gget (gset g n v) n = v := gget_gset_self (by omega) v
  have hcong : ∑ m ∈ (Finset.range 16).erase n, φ m (gget (gset g n v) m) =
      ∑ m ∈ (Finset.range 16).erase n, φ m (gget g m) :=
    Finset.sum_congr rfl (fun m hm =>
      congrArg (φ m) (gget_gset_ne (fun e => (Finset.mem_erase.mp hm).1 e.symm) v))
  rw [hself, hcong]
  omega

theorem Z_gset {g : List Nat} {n : Nat} (h16 : g.length = 16) (hn : n < 16)
    (v : Nat) :
    Z (gset g n v) + (if gget g n = 0 then 1 else 0) =
      Z g + (if v = 0 then 1 else 0) :=
  sumPhi_gset (fun _ x => if x = 0 then 1 else 0) h16 hn v

theorem pot_gset (pos : Int) {g : List Nat} {n : Nat} (h16 : g.length = 16)
    (hn : n < 16) (v : Nat) :
    pot pos (gset g n v) + (if gget g n ≠ 0 then wgt pos n else 0) =
      pot pos g + (if v ≠ 0 then wgt pos n else 0) :=
  sumPhi_gset (fun m x => if x ≠ 0 then wgt pos m else 0) h16 hn v

theorem Z_pos_of_zero {g : List Nat} {n : Nat} (hn : n < 16)
    (h0 : gget g n = 0) : 1 ≤ Z g := by
  unfold Z
  by_contra hcon
  push_neg at hcon
  have hz : (∑ m ∈ Finset.range 16, if gget g m = 0 then 1 else 0) = 0 := by omega
  rw [Finset.sum_eq_zero_iff] at hz
  have h2 := hz n (Finset.mem_range.mpr hn)
  rw [if_pos h0] at h2
  simp at h2

theorem length_lswap {g : List Nat} {a b : Nat} :
    (lswap g a b).length = g.length := by
  simp [lswap, length_gset]

theorem Z_lswap {g : List Nat} {a b : Nat} (h16 : g.length = 16) (ha : a < 16)
    (hb : b < 16) (hab : a ≠ b) : Z (lswap g a b) = Z g := by
  have e1 := Z_gset h16 ha (gget g b)
  have h16a : (gset g a (gget g b)).length = 16 := by rw [length_gset]; exact h16
  have e2 := Z_gset h16a hb (gget g a)
  rw [gget_gset_ne hab] at e2
  unfold lswap
  omega

theorem Z_transpose {g : List Nat} (h16 : g.length = 16) :
    Z (transpose g) = Z g := by
  have l1 : (lswap g 1 4).length = 16 := by rw [length_lswap]; exact h16
  have l2 : (lswap (lswap g 1 4) 2 8).length = 16 := by rw [length_lswap]; exact l1
  have l3 : (lswap (lswap (lswap g 1 4) 2 8) 3 12).length = 16 := by
    rw [length_lswap]; exact l2
  have l4 : (lswap (lswap (lswap (lswap g 1 4) 2 8) 3 12) 6 9).length = 16 := by
    rw [length_lswap]; exact l3
  have l5 : (lswap (lswap (lswap (lswap (lswap g 1 4) 2 8) 3 12) 6 9) 7 13).length = 16 := by
    rw [length_lswap]; exact l4
  have e1 : Z (lswap g 1 4) = Z g := Z_lswap h16 (by omega) (by omega) (by omega)
  have e2 : Z (lswap (lswap g 1 4) 2 8) = Z (lswap g 1 4) :=
    Z_lswap l1 (by omega) (by omega) (by omega)
  have e3 : Z (lswap (lswap (lswap g 1 4) 2 8) 3 12) =
      Z (lswap (lswap g 1 4) 2 8) := Z_lswap l2 (by omega) (by omega) (by omega)
  have e4 : Z (lswap (lswap (lswap (lswap g 1 4) 2 8) 3 12) 6 9) =
      Z (lswap (lswap (lswap g 1 4) 2 8) 3 12) :=
    Z_lswap l3 (by omega) (by omega) (by omega)
  have e5 : Z (lswap (lswap (lswap (lswap (lswap g 1 4) 2 8) 3 12) 6 9) 7 13) =
      Z (lswap (lswap (lswap (lswap g 1 4) 2 8) 3 12) 6 9) :=
    Z_lswap l4 (by omega) (by omega) (by omega)
  have e6 : Z (lswap (lswap (lswap (lswap (lswap (lswap g 1 4) 2 8) 3 12) 6 9) 7 13) 11 14) =
      Z (lswap (lswap (lswap (lswap (lswap g 1 4) 2 8) 3 12) 6 9) 7 13) :=
    Z_lswap l5 (by omega) (by omega) (by omega)
  unfold transpose
  rw [e6, e5, e4, e3, e2, e1]

/-! ### Properties of the compaction pass -/

theorem delete_zero_length (pos : Int) (g : List Nat) :
    (delete_zero pos g).1.length = g.length := by
  unfold delete_zero
  refine foldl_inv (fun s : List Nat × Bool => s.1.length = g.length) _ _ _ rfl ?_
  intro b i _ hb
  refine foldl_inv (fun s : List Nat × Bool => s.1.length = g.length) _ _ _ hb ?_
  intro b' j _ hb'
  unfold dzInner
  by_cases h0 : gget b'.1 (idx j i) = 0
  · rw [if_pos h0]
    cases hfd : (intRange (j + 1) (4 - pos)).find? (fun k => gget b'.1 (idx k i) ≠ 0) with
    | none => exact hb'
    | some k => simpa [length_gset] using hb'
  · rw [if_neg h0]
    exact hb'

theorem delete_zero_props {pos : Int} {g : List Nat} (hpos : pos = 0 ∨ pos = 3)
    (h16 : g.length = 16) :
    (delete_zero pos g).1.length = 16 ∧
      Z (delete_zero pos g).1 = Z g ∧
      pot pos (delete_zero pos g).1 ≤ pot pos g ∧
      ((delete_zero pos g).2 = false → (delete_zero pos g).1 = g) ∧
      ((delete_zero pos g).2 = true →
        pot pos (delete_zero pos g).1 < pot pos g ∧ 1 ≤ Z g) := by
  have step : ∀ (i : Nat), i < 4 → ∀ (j : Int), j ∈ intRange (0 - pos) (4 - pos) →
      ∀ s : List Nat × Bool,
      (s.1.length = 16 ∧ Z s.1 = Z g ∧ pot pos s.1 ≤ pot pos g ∧
        (s.2 = false → s.1 = g) ∧
        (s.2 = true → pot pos s.1 < pot pos g ∧ 1 ≤ Z g)) →
      ((dzInner pos i j s).1.length = 16 ∧ Z (dzInner pos i j s).1 = Z g ∧
        pot pos (dzInner pos i j s).1 ≤ pot pos g ∧
        ((dzInner pos i j s).2 = false → (dzInner pos i j s).1 = g) ∧
        ((dzInner pos i j s).2 = true →
          pot pos (dzInner pos i j s).1 < pot pos g ∧ 1 ≤ Z g)) := by
    intro i hi j hj s hP
    obtain ⟨hL, hZ, hpot, hfalse, htrue⟩ := hP
    unfold dzInner
    by_cases h0 : gget s.1 (idx j i) = 0
    · rw [if_pos h0]
      cases hfd : (intRange (j + 1) (4 - pos)).find? (fun k => gget s.1 (idx k i) ≠ 0) with
      | none => exact ⟨hL, hZ, hpot, hfalse, htrue⟩
      | some k =>
        have hkmem : k ∈ intRange (j + 1) (4 - pos) := List.mem_of_find?_eq_some hfd
        have hkval : gget s.1 (idx k i) ≠ 0 := by
          have h' := List.find?_some hfd
          simpa using h'
        obtain ⟨hjlt, hklt, hjk, hw⟩ := dz_move_facts hpos hi hj hkmem
        have hL1 : (gset s.1 (idx j i) (gget s.1 (idx k i))).length = 16 := by
          rw [length_gset]; exact hL
        have eZ1 := Z_gset hL hjlt (gget s.1 (idx k i))
        rw [if_pos h0, if_neg hkval] at eZ1
        have eZ2 := Z_gset hL1 hklt 0
        rw [gget_gset_ne hjk, if_neg hkval, if_pos rfl] at eZ2
        have eP1 := pot_gset pos hL hjlt (gget s.1 (idx k i))
        rw [if_neg (fun hc => hc h0), if_pos hkval] at eP1
        have eP2 := pot_gset pos hL1 hklt 0
        rw [gget_gset_ne hjk, if_pos hkval,
            if_neg (fun hc : (0:Nat) ≠ 0 => hc rfl)] at eP2
        have hZpos : 1 ≤ Z g := by
          have := Z_pos_of_zero hjlt h0
          omega
        refine ⟨?_, ?_, ?_, ?_, ?_⟩
        · simp [length_gset, hL]
        · dsimp only
          omega
        · dsimp only
          omega
        · intro hcon
          simp at hcon
        · intro _
          dsimp only
          exact ⟨by omega, hZpos⟩
    · rw [if_neg h0]
      exact ⟨hL, hZ, hpot, hfalse, htrue⟩
  unfold delete_zero
  refine foldl_inv (fun s : List Nat × Bool =>
      s.1.length = 16 ∧ Z s.1 = Z g ∧ pot pos s.1 ≤ pot pos g ∧
        (s.2 = false → s.1 = g) ∧
        (s.2 = true → pot pos s.1 < pot pos g ∧ 1 ≤ Z g)) _ _ _
    ⟨h16, rfl, Nat.le_refl _, fun _ => rfl, fun hco => by simp at hco⟩ ?_
  intro b i hi hPb
  refine foldl_inv (fun s : List Nat × Bool =>
      s.1.length = 16 ∧ Z s.1 = Z g ∧ pot pos s.1 ≤ pot pos g ∧
        (s.2 = false → s.1 = g) ∧
        (s.2 = true → pot pos s.1 < pot pos g ∧ 1 ≤ Z g)) _ _ _ hPb ?_
  intro b' j hj hPb'
  exact step i (by simpa using hi) j hj b' hPb'

/-! ### Properties of the merge pass -/

theorem mergePass_length (pos : Int) (s : List Nat × Nat × Nat × Bool) :
    (mergePass pos s).1.length = s.1.length := by
  unfold mergePass
  refine foldl_inv (fun t : List Nat × Nat × Nat × Bool =>
    t.1.length = s.1.length) _ _ _ rfl ?_
  intro b i _ hb
  refine foldl_inv (fun t : List Nat × Nat × Nat × Bool =>
    t.1.length = s.1.length) _ _ _ hb ?_
  intro b' j _ hb'
  unfold mgInner
  by_cases hc : gget b'.1 (idx j i) ≠ 0 ∧
      gget b'.1 (idx j i) = gget b'.1 (idx (j + 1) i)
  · rw [if_pos hc]
    simpa [length_gset] using hb'
  · rw [if_neg hc]
    exact hb'

theorem mergePass_props {pos : Int} (hpos : pos = 0 ∨ pos = 3) {g1 : List Nat}
    (h16 : g1.length = 16) (sc bs : Nat) :
    (mergePass pos (g1, sc, bs, false)).1.length = 16 ∧
      pot pos (mergePass pos (g1, sc, bs, false)).1 ≤ pot pos g1 ∧
      Z g1 + (if (mergePass pos (g1, sc, bs, false)).2.2.2 = true then 1 else 0) ≤
        Z (mergePass pos (g1, sc, bs, false)).1 ∧
      ((mergePass pos (g1, sc, bs, false)).2.2.2 = false →
        (mergePass pos (g1, sc, bs, false)).1 = g1 ∧
          (mergePass pos (g1, sc, bs, false)).2.1 = sc ∧
          (mergePass pos (g1, sc, bs, false)).2.2.1 = bs) ∧
      ((mergePass pos (g1, sc, bs, false)).2.2.2 = true →
        pot pos (mergePass pos (g1, sc, bs, false)).1 < pot pos g1) := by
  have step : ∀ (i : Nat), i < 4 → ∀ (j : Int), j ∈ intRange (0 - pos) (3 - pos) →
      ∀ s : List Nat × Nat × Nat × Bool,
      (s.1.length = 16 ∧ pot pos s.1 ≤ pot pos g1 ∧
        Z g1 + (if s.2.2.2 = true then 1 else 0) ≤ Z s.1 ∧
        (s.2.2.2 = false → s.1 = g1 ∧ s.2.1 = sc ∧ s.2.2.1 = bs) ∧
        (s.2.2.2 = true → pot pos s.1 < pot pos g1)) →
      ((mgInner pos i j s).1.length = 16 ∧
        pot pos (mgInner pos i j s).1 ≤ pot pos g1 ∧
        Z g1 + (if (mgInner pos i j s).2.2.2 = true then 1 else 0) ≤
          Z (mgInner pos i j s).1 ∧
        ((mgInner pos i j s).2.2.2 = false →
          (mgInner pos i j s).1 = g1 ∧ (mgInner pos i j s).2.1 = sc ∧
            (mgInner pos i j s).2.2.1 = bs) ∧
        ((mgInner pos i j s).2.2.2 = true →
          pot pos (mgInner pos i j s).1 < pot pos g1)) := by
    intro i hi j hj s hP
    obtain ⟨hL, hpot, hZ, hfalse, htrue⟩ := hP
    unfold mgInner
    by_cases hc : gget s.1 (idx j i) ≠ 0 ∧
        gget s.1 (idx j i) = gget s.1 (idx (j + 1) i)
    · rw [if_pos hc]
      obtain ⟨hA0, hAB⟩ := hc
      obtain ⟨hAlt, hBlt, hABne, hwlt, hw1⟩ := mg_move_facts hpos hi hj
      have hL1 : (gset s.1 (idx j i) (gget s.1 (idx j i) * 2 % W32)).length = 16 := by
        rw [length_gset]; exact hL
      have eZ1 := Z_gset hL hAlt (gget s.1 (idx j i) * 2 % W32)
      rw [if_neg hA0] at eZ1
      have eZ2 := Z_gset hL1 hBlt 0
      rw [gget_gset_ne hABne, ← hAB, if_neg hA0, if_pos rfl] at eZ2
      have eP1 := pot_gset pos hL hAlt (gget s.1 (idx j i) * 2 % W32)
      rw [if_pos hA0] at eP1
      have eP2 := pot_gset pos hL1 hBlt 0
      rw [gget_gset_ne hABne, ← hAB, if_pos hA0,
          if_neg (fun hcon : (0:Nat) ≠ 0 => hcon rfl)] at eP2
      have hub : (if gget s.1 (idx j i) * 2 % W32 ≠ 0 then wgt pos (idx j i) else 0) ≤
          wgt pos (idx j i) := by split <;> omega
      refine ⟨?_, ?_, ?_, ?_, ?_⟩
      · simp [length_gset, hL]
      · dsimp only
        omega
      · dsimp only
        rw [if_pos rfl]
        omega
      · intro hcon
        simp at hcon
      · intro _
        dsimp only
        omega
    · rw [if_neg hc]
      exact ⟨hL, hpot, hZ, hfalse, htrue⟩
  unfold mergePass
  refine foldl_inv (fun s : List Nat × Nat × Nat × Bool =>
      s.1.length = 16 ∧ pot pos s.1 ≤ pot pos g1 ∧
        Z g1 + (if s.2.2.2 = true then 1 else 0) ≤ Z s.1 ∧
        (s.2.2.2 = false → s.1 = g1 ∧ s.2.1 = sc ∧ s.2.2.1 = bs) ∧
        (s.2.2.2 = true → pot pos s.1 < pot pos g1)) _ _ _
    ⟨h16, Nat.le_refl _, by simp, fun _ => ⟨rfl, rfl, rfl⟩, fun hco => by simp at hco⟩ ?_
  intro b i hi hPb
  refine foldl_inv (fun s : List Nat × Nat × Nat × Bool =>
      s.1.length = 16 ∧ pot pos s.1 ≤ pot pos g1 ∧
        Z g1 + (if s.2.2.2 = true then 1 else 0) ≤ Z s.1 ∧
        (s.2.2.2 = false → s.1 = g1 ∧ s.2.1 = sc ∧ s.2.2.1 = bs) ∧
        (s.2.2.2 = true → pot pos s.1 < pot pos g1)) _ _ _ hPb ?_
  intro b' j hj hPb'
  exact step i (by simpa using hi) j hj b' hPb'

theorem mergePass_score (pos : Int) (s : List Nat × Nat × Nat × Bool)
    (hsc : s.2.1 ≤ M32) :
    s.2.1 ≤ (mergePass pos s).2.1 ∧ (mergePass pos s).2.1 ≤ M32 ∧
      s.2.2.1 ≤ (mergePass pos s).2.2.1 ∧
      (s.2.1 ≤ s.2.2.1 → (mergePass pos s).2.1 ≤ (mergePass pos s).2.2.1) := by
  unfold mergePass
  refine foldl_inv (fun t : List Nat × Nat × Nat × Bool =>
      s.2.1 ≤ t.2.1 ∧ t.2.1 ≤ M32 ∧ s.2.2.1 ≤ t.2.2.1 ∧
        (s.2.1 ≤ s.2.2.1 → t.2.1 ≤ t.2.2.1)) _ _ _
    ⟨Nat.le_refl _, hsc, Nat.le_refl _, fun h => h⟩ ?_
  intro b i _ hb
  refine foldl_inv (fun t : List Nat × Nat × Nat × Bool =>
      s.2.1 ≤ t.2.1 ∧ t.2.1 ≤ M32 ∧ s.2.2.1 ≤ t.2.2.1 ∧
        (s.2.1 ≤ s.2.2.1 → t.2.1 ≤ t.2.2.1)) _ _ _ hb ?_
  intro b' j _ hb'
  obtain ⟨h1, h2, h3, h4⟩ := hb'
  unfold mgInner
  by_cases hc : gget b'.1 (idx j i) ≠ 0 ∧
      gget b'.1 (idx j i) = gget b'.1 (idx (j + 1) i)
  · rw [if_pos hc]
    by_cases hbs : b'.2.2.1 < satAdd b'.2.1 (gget b'.1 (idx j i) * 2 % W32)
    · rw [if_pos hbs]
      simp only [satAdd, M32] at *
      refine ⟨by omega, by omega, by omega, fun h => by omega⟩
    · rw [if_neg hbs]
      simp only [satAdd, M32] at *
      refine ⟨by omega, by omega, by omega, fun h => by omega⟩
  · rw [if_neg hc]
    exact ⟨h1, h2, h3, h4⟩

/-! ### Facts about the whole of `Game::merge` -/

theorem merge_eq (s : Game) (dir : Nat) (pos : Int) :
    s.merge dir pos =
      ({ s with
          datas := if dir = 1 then transpose (stage3 s dir pos).1
            else (stage3 s dir pos).1,
          score := (stage2 s dir pos).2.1,
          best_score := (stage2 s dir pos).2.2.1 },
        (stage1 s dir pos).2 || (stage2 s dir pos).2.2.2) := rfl

theorem normG_length {s : Game} {dir : Nat} (h16 : s.datas.length = 16) :
    (normG s dir).length = 16 := by
  unfold normG
  by_cases hd : dir = 1
  · rw [if_pos hd, transpose_length]
    exact h16
  · rw [if_neg hd]
    exact h16

theorem merge_datas_length (s : Game) (dir : Nat) (pos : Int) :
    (s.merge dir pos).1.datas.length = s.datas.length := by
  have l1 : (stage1 s dir pos).1.length = (normG s dir).length :=
    delete_zero_length pos (normG s dir)
  have l2 : (stage2 s dir pos).1.length = (stage1 s dir pos).1.length :=
    mergePass_length pos _
  have l3 : (stage3 s dir pos).1.length = (stage2 s dir pos).1.length :=
    delete_zero_length pos _
  have l0 : (normG s dir).length = s.datas.length := by
    unfold normG
    by_cases hd : dir = 1
    · rw [if_pos hd, transpose_length]
    · rw [if_neg hd]
  rw [merge_eq]
  show (if dir = 1 then transpose (stage3 s dir pos).1
      else (stage3 s dir pos).1).length = s.datas.length
  by_cases hd : dir = 1
  · rw [if_pos hd, transpose_length]
    omega
  · rw [if_neg hd]
    omega

theorem merge_not_moved {s : Game} {dir : Nat} {pos : Int}
    (hd : dir = 0 ∨ dir = 1) (hpos : pos = 0 ∨ pos = 3)
    (h16 : s.datas.length = 16) (hmv : (s.merge dir pos).2 = false) :
    (s.merge dir pos).1.datas = s.datas ∧ (s.merge dir pos).1.score = s.score ∧
      (s.merge dir pos).1.best_score = s.best_score := by
  have h160 : (normG s dir).length = 16 := normG_length h16
  obtain ⟨dL, dZ, dpot, dfalse, dtrue⟩ := delete_zero_props hpos h160
  obtain ⟨mL, mpot, mZ, mfalse, mtrue⟩ := mergePass_props hpos dL s.score s.best_score
  rw [merge_eq] at hmv ⊢
  unfold stage3 stage2 stage1 at hmv ⊢
  dsimp only at hmv ⊢
  simp only [Bool.or_eq_false_iff] at hmv
  obtain ⟨f1, f2⟩ := hmv
  have e1 : (delete_zero pos (normG s dir)).1 = normG s dir := dfalse f1
  obtain ⟨e21, e22, e23⟩ := mfalse f2
  refine ⟨?_, e22, e23⟩
  rw [e21, e1, e1]
  unfold normG
  rcases hd with rfl | rfl
  · simp
  · simp [transpose_transpose h16]

theorem merge_moved {s : Game} {dir : Nat} {pos : Int}
    (hd : dir = 0 ∨ dir = 1) (hpos : pos = 0 ∨ pos = 3)
    (h16 : s.datas.length = 16) (hmv : (s.merge dir pos).2 = true) :
    (s.merge dir pos).1.datas ≠ s.datas ∧ 1 ≤ Z (s.merge dir pos).1.datas := by
  have h160 : (normG s dir).length = 16 := normG_length h16
  obtain ⟨dL, dZ, dpot, dfalse, dtrue⟩ := delete_zero_props hpos h160
  obtain ⟨mL, mpot, mZ, mfalse, mtrue⟩ := mergePass_props hpos dL s.score s.best_score
  obtain ⟨d3L, d3Z, d3pot, d3f, d3t⟩ := delete_zero_props hpos mL
  rw [merge_eq] at hmv ⊢
  unfold stage3 stage2 stage1 at hmv ⊢
  dsimp only at hmv ⊢
  simp only [Bool.or_eq_true] at hmv
  have hpotlt : pot pos (delete_zero pos
      (mergePass pos ((delete_zero pos (normG s dir)).1,
        s.score, s.best_score, false)).1).1 < pot pos (normG s dir) := by
    rcases hmv with f1 | f2
    · have h1 := (dtrue f1).1
      omega
    · have h2 := mtrue f2
      omega
  have hZ1 : 1 ≤ Z (delete_zero pos
      (mergePass pos ((delete_zero pos (normG s dir)).1,
        s.score, s.best_score, false)).1).1 := by
    rcases hmv with f1 | f2
    · have hZn := (dtrue f1).2
      have hite : (0:Nat) ≤ (if (mergePass pos ((delete_zero pos (normG s dir)).1,
          s.score, s.best_score, false)).2.2.2 = true then 1 else 0) := Nat.zero_le _
      omega
    · rw [if_pos f2] at mZ
      omega
  have hne : (delete_zero pos (mergePass pos ((delete_zero pos (normG s dir)).1,
      s.score, s.best_score, false)).1).1 ≠ normG s dir := by
    intro e
    rw [e] at hpotlt
    omega
  constructor
  · rcases hd with rfl | rfl
    · rw [if_neg (by omega : ¬((0:Nat) = 1))]
      intro e
      apply hne
      rw [e]
      unfold normG
      simp
    · rw [if_pos rfl]
      intro e
      apply hne
      have e2 := congrArg transpose e
      rw [transpose_transpose d3L] at e2
      rw [e2]
      unfold normG
      simp
  · rcases hd with rfl | rfl
    · simpa using hZ1
    · rw [if_pos rfl, Z_transpose d3L]
      exact hZ1

theorem merge_score (s : Game) (dir : Nat) (pos : Int) (hsc : s.score ≤ M32) :
    s.score ≤ (s.merge dir pos).1.score ∧ (s.merge dir pos).1.score ≤ M32 ∧
      s.best_score ≤ (s.merge dir pos).1.best_score ∧
      (s.score ≤ s.best_score →
        (s.merge dir pos).1.score ≤ (s.merge dir pos).1.best_score) := by
  have h := mergePass_score pos ((stage1 s dir pos).1, s.score, s.best_score, false) hsc
  rw [merge_eq]
  exact h

/-! ### Claim C1 -/

/-- C1: for every 16-cell grid state and every direction, the move
operation `Game::merge` (with the direction/offset parameters the key
handlers pass) reports `moved = true` exactly when the resulting grid
differs from the input grid in at least one cell. -/
theorem C1_moved_iff_grid_changed (d : Dir) (s : Game)
    (h16 : s.datas.length = 16) :
    (s.merge (dirDP d).1 (dirDP d).2).2 = true ↔
      (s.merge (dirDP d).1 (dirDP d).2).1.datas ≠ s.datas := by
  have hd : (dirDP d).1 = 0 ∨ (dirDP d).1 = 1 := by
    cases d <;> simp [dirDP]
  have hpos : (dirDP d).2 = 0 ∨ (dirDP d).2 = 3 := by
    cases d <;> simp [dirDP]
  constructor
  · intro h
    exact (merge_moved hd hpos h16 h).1
  · intro h
    by_contra hf
    rw [Bool.not_eq_true] at hf
    exact h (merge_not_moved hd hpos h16 hf).1

/-- Witness for C1 at a concrete input: moving the row `[2,2,0,0]` Left
changes the grid, and the equivalence evaluates accordingly. -/
theorem C1_witness :
    ((⟨0, 0, [2,2,0,0, 0,0,0,0, 0,0,0,0, 0,0,0,0], true, false, 0, []⟩ : Game).merge
        (dirDP Dir.left).1 (dirDP Dir.left).2).1.datas ≠
      [2,2,0,0, 0,0,0,0, 0,0,0,0, 0,0,0,0] :=
  (C1_moved_iff_grid_changed Dir.left
    ⟨0, 0, [2,2,0,0, 0,0,0,0, 0,0,0,0, 0,0,0,0], true, false, 0, []⟩
    (by decide)).mp (by decide)

/-! ### Spawning -/

theorem emptyIndices_ne_nil {g : List Nat} (hZ : 1 ≤ Z g) :
    emptyIndices g ≠ [] := by
  intro he
  rw [emptyIndices, List.filter_eq_nil_iff] at he
  have hz : (∑ m ∈ Finset.range 16, if gget g m = 0 then 1 else 0) = 0 := by
    refine Finset.sum_eq_zero ?_
    intro m hm
    rw [if_neg]
    intro h0
    exact absurd (by simpa using h0) (by simpa using he m (by
      simpa using Finset.mem_range.mp hm))
  unfold Z at hZ
  omega

theorem perm_ne_nil {perm l : List Nat} (hp : perm.Perm l) (hl : l ≠ []) :
    perm ≠ [] := by
  intro he
  subst he
  exact hl hp.symm.eq_nil

theorem spawn_props {s : Game} {perm : List Nat} {coin : Bool}
    (h16 : s.datas.length = 16) (hperm : perm.Perm (emptyIndices s.datas))
    (hne : emptyIndices s.datas ≠ []) :
    ∃ i s', s.spawn_tile perm coin = some s' ∧ i < 16 ∧ gget s.datas i = 0 ∧
      s'.datas = gset s.datas i (if coin then 2 else 4) ∧
      (gget s'.datas i = 2 ∨ gget s'.datas i = 4) ∧
      (∀ m, m ≠ i → gget s'.datas m = gget s.datas m) ∧
      s'.new_tiles = s.new_tiles ++ [some i] ∧
      s'.spawn_count = s.spawn_count + 1 ∧
      Z s'.datas + 1 = Z s.datas ∧
      s'.score = s.score ∧ s'.best_score = s.best_score ∧
      s'.is_started = s.is_started ∧ s'.is_game_over = s.is_game_over ∧
      s'.datas.length = 16 := by
  rcases hpe : perm with _ | ⟨i, rest⟩
  · exact absurd hpe (perm_ne_nil hperm hne)
  · subst hpe
    have himem : i ∈ emptyIndices s.datas := by
      rw [← hperm.mem_iff]
      exact List.mem_cons_self i rest
    rw [emptyIndices, List.mem_filter, List.mem_range] at himem
    obtain ⟨hilt, hi0⟩ := himem
    have hi0' : gget s.datas i = 0 := by simpa using hi0
    have hv : (if coin then 2 else 4) ≠ 0 := by cases coin <;> simp
    have hlt : i < s.datas.length := by omega
    have hself := gget_gset_self hlt (if coin then 2 else 4)
    have hZ : Z (gset s.datas i (if coin then 2 else 4)) + 1 = Z s.datas := by
      have hz := Z_gset h16 hilt (if coin then 2 else 4)
      rw [if_pos hi0', if_neg hv] at hz
      omega
    refine ⟨i, ⟨s.score, s.best_score, gset s.datas i (if coin then 2 else 4),
        s.is_started, s.is_game_over, s.spawn_count + 1,
        s.new_tiles ++ [some i]⟩,
      rfl, hilt, hi0', rfl, ?_, ?_, rfl, rfl, hZ, rfl, rfl, rfl, rfl, ?_⟩
    · show gget (gset s.datas i (if coin then 2 else 4)) i = 2 ∨
        gget (gset s.datas i (if coin then 2 else 4)) i = 4
      rw [hself]
      cases coin
      · right
        simp
      · left
        simp
    · intro m hm
      show gget (gset s.datas i (if coin then 2 else 4)) m = gget s.datas m
      exact gget_gset_ne (fun e => hm e.symm) _
    · show (gset s.datas i (if coin then 2 else 4)).length = 16
      rw [length_gset]
      exact h16

/-! ### Claim C7 -/

/-- C7: for every 16-cell grid with at least one empty cell and every
outcome of the random source (any shuffle of the empty-cell indices and
either coin value), `spawn_tile` succeeds and sets exactly one cell that
was 0 before the call to 2 or 4, leaves every other cell unchanged, and
records the index of that cell — so the spawned index is always a cell
that was empty before the call. -/
theorem C7_spawn_characterisation (s : Game) (perm : List Nat) (coin : Bool)
    (h16 : s.datas.length = 16) (hperm : perm.Perm (emptyIndices s.datas))
    (hne : emptyIndices s.datas ≠ []) :
    ∃ i s', s.spawn_tile perm coin = some s' ∧ i < 16 ∧ gget s.datas i = 0 ∧
      (gget s'.datas i = 2 ∨ gget s'.datas i = 4) ∧
      (∀ m, m ≠ i → gget s'.datas m = gget s.datas m) ∧
      s'.new_tiles = s.new_tiles ++ [some i] := by
  obtain ⟨i, s', h⟩ := spawn_props h16 hperm hne
  exact ⟨i, s', h.1, h.2.1, h.2.2.1, h.2.2.2.2.1, h.2.2.2.2.2.1,
    h.2.2.2.2.2.2.1⟩

/-- Witness for C7 at a concrete input: spawning on the empty board with
the identity shuffle. -/
theorem C7_witness :
    ∃ i s', (Game.init 0).spawn_tile (List.range 16) true = some s' ∧
      i < 16 ∧ gget (Game.init 0).datas i = 0 ∧
      (gget s'.datas i = 2 ∨ gget s'.datas i = 4) ∧
      (∀ m, m ≠ i → gget s'.datas m = gget (Game.init 0).datas m) ∧
      s'.new_tiles = (Game.init 0).new_tiles ++ [some i] :=
  C7_spawn_characterisation (Game.init 0) (List.range 16) true (by decide)
    (by
      have e : emptyIndices (Game.init 0).datas = List.range 16 := by decide
      rw [e])
    (by decide)

/-! ### The terminal-state check -/

theorem check_fail_iff {g : List Nat} (h16 : g.length = 16) :
    check_fail g = true ↔ TerminalP g := by
  have hfull : g.countP (fun x => x = 0) = 0 ↔ ∀ n < 16, gget g n ≠ 0 := by
    rw [List.countP_eq_zero]
    constructor
    · intro h n hn h0
      have hlt : n < g.length := by omega
      have hm : gget g n ∈ g := by
        rw [gget_lt hlt]
        exact List.getElem_mem hlt
      have h2 := h _ hm
      exact absurd h0 (by simpa using h2)
    · intro h a ha
      simp only [decide_eq_true_eq]
      intro h0
      rw [List.mem_iff_getElem] at ha
      obtain ⟨n, hn, hgn⟩ := ha
      exact h n (by omega) (by rw [gget_lt hn, hgn, h0])
  unfold check_fail TerminalP
  by_cases hc : g.countP (fun x => x = 0) ≠ 0
  · rw [if_pos hc]
    constructor
    · intro hco
      exact absurd hco (by simp)
    · intro hT
      exact absurd (hfull.mpr hT.1) hc
  · rw [if_neg hc]
    push_neg at hc
    have h1 : ∀ n < 16, gget g n ≠ 0 := hfull.mp hc
    rw [List.all_eq_true]
    constructor
    · intro hall
      refine ⟨h1, ?_⟩
      intro n hn
      have h2 := hall n (by simpa using hn)
      rw [decide_eq_true_eq] at h2
      constructor
      · intro hcol he
        exact h2.1 ⟨hcol, he⟩
      · intro hrow he
        exact h2.2 ⟨hrow, he⟩
    · intro hT i hi
      rw [decide_eq_true_eq]
      have hi16 : i < 16 := by simpa using hi
      refine ⟨?_, ?_⟩
      · intro hh
        exact (hT.2 i hi16).1 hh.1 hh.2
      · intro hh
        exact (hT.2 i hi16).2 hh.1 hh.2

/-! ### Claim C2 -/

/-- C2: for every 16-cell grid, `check_fail` returns true exactly when
the grid has no empty cell and no cell equals its right neighbour (when
not in the last column) or its lower neighbour (when not in the last
row); in particular a grid with an empty cell is never terminal, and a
grid with an equal adjacent pair is never terminal. -/
theorem C2_terminal_check_correct (g : List Nat) (h16 : g.length = 16) :
    (check_fail g = true ↔ TerminalP g) ∧
      ((∃ n, n < 16 ∧ gget g n = 0) → check_fail g = false) ∧
      ((∃ n, n < 16 ∧ ((n % 4 < 3 ∧ gget g n = gget g (n + 1)) ∨
          (n / 4 < 3 ∧ gget g n = gget g (n + 4)))) → check_fail g = false) := by
  have hiff := check_fail_iff h16
  refine ⟨hiff, ?_, ?_⟩
  · intro ⟨n, hn, h0⟩
    rw [Bool.eq_false_iff]
    intro ht
    exact ((hiff.mp ht).1 n hn) h0
  · intro ⟨n, hn, hadj⟩
    rw [Bool.eq_false_iff]
    intro ht
    have hT := hiff.mp ht
    rcases hadj with ⟨hcol, he⟩ | ⟨hrow, he⟩
    · exact (hT.2 n hn).1 hcol he
    · exact (hT.2 n hn).2 hrow he

/-- Witness for C2 at a concrete input: the alternating full grid is
terminal, and the equivalence evaluates accordingly. -/
theorem C2_witness :
    check_fail [2,4,2,4, 4,2,4,2, 2,4,2,4, 4,2,4,2] = true :=
  (C2_terminal_check_correct [2,4,2,4, 4,2,4,2, 2,4,2,4, 4,2,4,2]
    (by decide)).1.mpr (by decide)

/-! ### Claim C6 -/

theorem gget_replicate_zero (i : Nat) : gget (List.replicate 16 0) i = 0 := by
  rw [gget, List.getD_eq_getElem?_getD, List.getElem?_replicate]
  by_cases h : i < 16 <;> simp [h]

theorem merge_moved_empty {s : Game} {d : Dir} (h16 : s.datas.length = 16)
    (hmv : (s.merge (dirDP d).1 (dirDP d).2).2 = true) :
    emptyIndices (s.merge (dirDP d).1 (dirDP d).2).1.datas ≠ [] := by
  have hd : (dirDP d).1 = 0 ∨ (dirDP d).1 = 1 := by cases d <;> simp [dirDP]
  have hpos : (dirDP d).2 = 0 ∨ (dirDP d).2 = 3 := by cases d <;> simp [dirDP]
  exact emptyIndices_ne_nil (merge_moved hd hpos h16 hmv).2

/-- C6: `spawn_tile` is never invoked on a grid with no empty cells.
First conjunct: whenever the move operation reports `moved = true`, the
resulting grid has at least one empty cell (so the `nums` vector of the
subsequent spawn is non-empty).  Second conjunct: hence each of the four
key handlers, run with any genuine shuffle of the empty cells of the
post-move grid, never reaches the panicking `nums[0]` (never returns
`none`).  Third conjunct: the two `new_game` spawns fall on a board with
at most one prior tile (16, then 15 empty cells), so `new_game` never
reaches it either. -/
theorem C6_spawn_precondition_unreachable :
    (∀ (d : Dir) (s : Game), s.datas.length = 16 →
      (s.merge (dirDP d).1 (dirDP d).2).2 = true →
      1 ≤ Z (s.merge (dirDP d).1 (dirDP d).2).1.datas ∧
        emptyIndices (s.merge (dirDP d).1 (dirDP d).2).1.datas ≠ []) ∧
    (∀ (d : Dir) (s : Game) (o : Oracle), s.datas.length = 16 →
      o.1.Perm (emptyIndices
        (({ s with new_tiles := [] } : Game).merge (dirDP d).1
          (dirDP d).2).1.datas) →
      s.moveStep (dirDP d).1 (dirDP d).2 o ≠ none) ∧
    (∀ (s : Game) (o1 o2 : Oracle),
      o1.1.Perm (emptyIndices (List.replicate 16 0)) →
      (∀ s1, Game.spawn_tile
          { s with
            score := 0
            is_started := true
            new_tiles := []
            datas := List.replicate 16 0
            is_game_over := false }
          o1.1 o1.2 = some s1 → o2.1.Perm (emptyIndices s1.datas)) →
      s.new_game o1 o2 ≠ none) := by
  have hA : ∀ (d : Dir) (s : Game), s.datas.length = 16 →
      (s.merge (dirDP d).1 (dirDP d).2).2 = true →
      1 ≤ Z (s.merge (dirDP d).1 (dirDP d).2).1.datas ∧
        emptyIndices (s.merge (dirDP d).1 (dirDP d).2).1.datas ≠ [] := by
    intro d s h16 hmv
    have hd : (dirDP d).1 = 0 ∨ (dirDP d).1 = 1 := by cases d <;> simp [dirDP]
    have hpos : (dirDP d).2 = 0 ∨ (dirDP d).2 = 3 := by cases d <;> simp [dirDP]
    exact ⟨(merge_moved hd hpos h16 hmv).2, merge_moved_empty h16 hmv⟩
  refine ⟨hA, ?_, ?_⟩
  · intro d s o h16 hperm
    unfold Game.moveStep
    by_cases hst : s.is_started = false
    · rw [if_pos hst]
      simp
    · rw [if_neg hst]
      rcases hflag : (({ s with new_tiles := [] } : Game).merge (dirDP d).1
          (dirDP d).2).2 with _ | _
      · simp
      · have hemp := (hA d { s with new_tiles := [] } h16 hflag).2
        have hne := perm_ne_nil hperm hemp
        rcases ho : o.1 with _ | ⟨i, rest⟩
        · exact absurd ho hne
        · rw [if_pos rfl]
          simp [Game.spawn_tile]
  · intro s o1 o2 hperm1 hperm2
    unfold Game.new_game
    have hrep : emptyIndices (List.replicate 16 0) = List.range 16 := by decide
    have hne1 : o1.1 ≠ [] := by
      refine perm_ne_nil hperm1 ?_
      rw [hrep]
      decide
    rcases ho1 : o1.1 with _ | ⟨i, rest⟩
    · exact absurd ho1 hne1
    · have hi16 : i < 16 := by
        have himem : i ∈ emptyIndices (List.replicate 16 0) := by
          rw [← hperm1.mem_iff, ho1]
          exact List.mem_cons_self i rest
        rw [hrep, List.mem_range] at himem
        exact himem
      have hZ1 : 1 ≤ Z (gset (List.replicate 16 0) i (if o1.2 then 2 else 4)) := by
        have hz := Z_gset (show (List.replicate 16 0).length = 16 by simp) hi16
          (if o1.2 then 2 else 4)
        rw [gget_replicate_zero, if_pos rfl,
            if_neg (show ¬(if o1.2 then 2 else 4) = 0 by
              rcases o1.2 with _ | _ <;> simp)] at hz
        have hzrep : Z (List.replicate 16 0) = 16 := by decide
        omega
      rw [ho1] at hperm2
      have hperm2' := hperm2 _ rfl
      have hne2 : o2.1 ≠ [] :=
        perm_ne_nil hperm2' (emptyIndices_ne_nil hZ1)
      simp only [Game.spawn_tile, Option.some_bind]
      rcases ho2 : o2.1 with _ | ⟨i2, rest2⟩
      · exact absurd ho2 hne2
      · simp [Game.spawn_tile]

/-- Witness for C6 at a concrete input: moving the row `[2,2,0,0]` Left
merges, and the resulting grid indeed has an empty cell. -/
theorem C6_witness :
    1 ≤ Z ((⟨0, 0, [2,2,0,0, 0,0,0,0, 0,0,0,0, 0,0,0,0], true, false, 0, []⟩ :
        Game).merge (dirDP Dir.left).1 (dirDP Dir.left).2).1.datas ∧
      emptyIndices ((⟨0, 0, [2,2,0,0, 0,0,0,0, 0,0,0,0, 0,0,0,0], true, false,
        0, []⟩ : Game).merge (dirDP Dir.left).1 (dirDP Dir.left).2).1.datas ≠ [] :=
  C6_spawn_precondition_unreachable.1 Dir.left
    ⟨0, 0, [2,2,0,0, 0,0,0,0, 0,0,0,0, 0,0,0,0], true, false, 0, []⟩
    (by decide) (by decide)

/-! ### Case analyses of the key handlers -/

theorem spawn_fields {s s' : Game} {perm : List Nat} {coin : Bool}
    (h : s.spawn_tile perm coin = some s') :
    ∃ i rest, perm = i :: rest ∧
      s'.datas = gset s.datas i (if coin then 2 else 4) ∧
      s'.score = s.score ∧ s'.best_score = s.best_score ∧
      s'.is_started = s.is_started ∧ s'.is_game_over = s.is_game_over ∧
      s'.new_tiles = s.new_tiles ++ [some i] ∧
      s'.spawn_count = s.spawn_count + 1 := by
  rcases perm with _ | ⟨i, rest⟩
  · simp [Game.spawn_tile] at h
  · refine ⟨i, rest, rfl, ?_⟩
    have h' := Option.some.inj h
    rw [← h']
    exact ⟨rfl, rfl, rfl, rfl, rfl, rfl, rfl⟩

theorem moveStep_cases {s s' : Game} {dir : Nat} {pos : Int} {o : Oracle}
    (h : s.moveStep dir pos o = some s') :
    (s.is_started = false ∧ s' = s) ∨
    (s.is_started = true ∧ ∃ s2 : Game,
      ((((({ s with new_tiles := [] } : Game).merge dir pos).2 = false ∧
          s2 = (({ s with new_tiles := [] } : Game).merge dir pos).1) ∨
        ((({ s with new_tiles := [] } : Game).merge dir pos).2 = true ∧
          (({ s with new_tiles := [] } : Game).merge dir pos).1.spawn_tile
            o.1 o.2 = some s2)) ∧
      ((check_fail s2.datas = true ∧
          s' = { s2 with is_started := false, is_game_over := true }) ∨
        (check_fail s2.datas = false ∧ s' = s2)))) := by
  unfold Game.moveStep at h
  by_cases hst : s.is_started = false
  · rw [if_pos hst] at h
    exact Or.inl ⟨hst, (Option.some.inj h).symm⟩
  · rw [if_neg hst] at h
    refine Or.inr ⟨by simpa using hst, ?_⟩
    rcases hflag : (({ s with new_tiles := [] } : Game).merge dir pos).2 with _ | _
    · rw [hflag] at h
      rw [show (if false = true then
          (({ s with new_tiles := [] } : Game).merge dir pos).1.spawn_tile o.1 o.2
        else some (({ s with new_tiles := [] } : Game).merge dir pos).1) =
          some (({ s with new_tiles := [] } : Game).merge dir pos).1 by simp] at h
      simp only [Option.map] at h
      have h' := Option.some.inj h
      refine ⟨(({ s with new_tiles := [] } : Game).merge dir pos).1,
        Or.inl ⟨rfl, rfl⟩, ?_⟩
      rcases hcf : check_fail ((({ s with new_tiles := [] } : Game).merge
          dir pos).1).datas with _ | _
      · rw [hcf] at h'
        rw [if_neg (by simp)] at h'
        exact Or.inr ⟨rfl, h'.symm⟩
      · rw [hcf] at h'
        rw [if_pos rfl] at h'
        exact Or.inl ⟨rfl, h'.symm⟩
    · rw [hflag] at h
      rw [show (if true = true then
          (({ s with new_tiles := [] } : Game).merge dir pos).1.spawn_tile o.1 o.2
        else some (({ s with new_tiles := [] } : Game).merge dir pos).1) =
          (({ s with new_tiles := [] } : Game).merge dir pos).1.spawn_tile o.1 o.2
          by simp] at h
      rcases hsp : (({ s with new_tiles := [] } : Game).merge
          dir pos).1.spawn_tile o.1 o.2 with _ | s2
      · rw [hsp] at h
        simp at h
      · rw [hsp] at h
        simp only [Option.map] at h
        have h' := Option.some.inj h
        refine ⟨s2, Or.inr ⟨rfl, rfl⟩, ?_⟩
        rcases hcf : check_fail s2.datas with _ | _
        · rw [hcf] at h'
          rw [if_neg (by simp)] at h'
          exact Or.inr ⟨rfl, h'.symm⟩
        · rw [hcf] at h'
          rw [if_pos rfl] at h'
          exact Or.inl ⟨rfl, h'.symm⟩

theorem new_game_fields {s s' : Game} {o1 o2 : Oracle}
    (h : s.new_game o1 o2 = some s') :
    ∃ i1 r1 i2 r2, o1.1 = i1 :: r1 ∧ o2.1 = i2 :: r2 ∧
      s'.score = 0 ∧ s'.best_score = s.best_score ∧ s'.is_started = true ∧
      s'.is_game_over = false ∧
      s'.datas = gset (gset (List.replicate 16 0) i1 (if o1.2 then 2 else 4)) i2
        (if o2.2 then 2 else 4) ∧
      s'.new_tiles = [some i1, some i2] ∧
      s'.spawn_count = s.spawn_count + 2 := by
  obtain ⟨p1, c1⟩ := o1
  obtain ⟨p2, c2⟩ := o2
  unfold Game.new_game at h
  rcases p1 with _ | ⟨i1, r1⟩
  · simp [Game.spawn_tile] at h
  · rcases p2 with _ | ⟨i2, r2⟩
    · simp [Game.spawn_tile] at h
    · simp only [Game.spawn_tile, Option.some_bind] at h
      have h' := Option.some.inj h
      refine ⟨i1, r1, i2, r2, rfl, rfl, ?_⟩
      rw [← h']
      exact ⟨rfl, rfl, rfl, rfl, rfl, rfl, rfl⟩

/-! ### Claim C9 -/

/-- C9: within a game the score is monotonically non-decreasing and its
updates saturate at `u32::MAX` (never wrap); `best_score` never decreases
under any engine operation; and whenever `best_score ≥ score` holds
before a move (as it does in every state a game reaches, since
`new_game` resets the score to 0 and keeps `best_score`), it holds again
after the move, `best_score` having been raised to the score whenever
the score passed it.  Stated for the raw move operation, for the key
handlers, and for `new_game`. -/
theorem C9_score_monotone_saturating :
    (∀ (s : Game) (dir : Nat) (pos : Int), s.score ≤ M32 →
      s.score ≤ (s.merge dir pos).1.score ∧ (s.merge dir pos).1.score ≤ M32 ∧
      s.best_score ≤ (s.merge dir pos).1.best_score ∧
      (s.score ≤ s.best_score →
        (s.merge dir pos).1.score ≤ (s.merge dir pos).1.best_score)) ∧
    (∀ (s s' : Game) (dir : Nat) (pos : Int) (o : Oracle), s.score ≤ M32 →
      s.moveStep dir pos o = some s' →
      s.score ≤ s'.score ∧ s'.score ≤ M32 ∧ s.best_score ≤ s'.best_score ∧
        (s.score ≤ s.best_score → s'.score ≤ s'.best_score)) ∧
    (∀ (s s' : Game) (o1 o2 : Oracle), s.new_game o1 o2 = some s' →
      s'.score = 0 ∧ s'.best_score = s.best_score) := by
  refine ⟨fun s dir pos hsc => merge_score s dir pos hsc, ?_, ?_⟩
  · intro s s' dir pos o hsc hmv
    rcases moveStep_cases hmv with ⟨_, rfl⟩ | ⟨_, s2, hs2, hfin⟩
    · exact ⟨Nat.le_refl _, hsc, Nat.le_refl _, fun h => h⟩
    · have hm := merge_score ({ s with new_tiles := [] }) dir pos hsc
      have hs2f : s2.score = (({ s with new_tiles := [] } : Game).merge
            dir pos).1.score ∧
          s2.best_score = (({ s with new_tiles := [] } : Game).merge
            dir pos).1.best_score := by
        rcases hs2 with ⟨_, rfl⟩ | ⟨_, hsp⟩
        · exact ⟨rfl, rfl⟩
        · obtain ⟨i, rest, _, _, hsc2, hbs2, _⟩ := spawn_fields hsp
          exact ⟨hsc2, hbs2⟩
      have hfin' : s'.score = s2.score ∧ s'.best_score = s2.best_score := by
        rcases hfin with ⟨_, rfl⟩ | ⟨_, rfl⟩
        · exact ⟨rfl, rfl⟩
        · exact ⟨rfl, rfl⟩
      rw [hfin'.1, hfin'.2, hs2f.1, hs2f.2]
      exact hm
  · intro s s' o1 o2 hng
    obtain ⟨i1, r1, i2, r2, _, _, hsc, hbs, _⟩ := new_game_fields hng
    exact ⟨hsc, hbs⟩

/-- Witness for C9 at a concrete input: moving the row `[2,2,0,0]` Left
adds 4 to the score and raises the best score accordingly. -/
theorem C9_witness :
    (0:Nat) ≤ ((⟨0, 0, [2,2,0,0, 0,0,0,0, 0,0,0,0, 0,0,0,0], true, false, 0,
        []⟩ : Game).merge 1 0).1.score ∧
      ((⟨0, 0, [2,2,0,0, 0,0,0,0, 0,0,0,0, 0,0,0,0], true, false, 0,
        []⟩ : Game).merge 1 0).1.score ≤ M32 ∧
      (0:Nat) ≤ ((⟨0, 0, [2,2,0,0, 0,0,0,0, 0,0,0,0, 0,0,0,0], true, false, 0,
        []⟩ : Game).merge 1 0).1.best_score ∧
      ((0:Nat) ≤ (0:Nat) →
        ((⟨0, 0, [2,2,0,0, 0,0,0,0, 0,0,0,0, 0,0,0,0], true, false, 0,
          []⟩ : Game).merge 1 0).1.score ≤
          ((⟨0, 0, [2,2,0,0, 0,0,0,0, 0,0,0,0, 0,0,0,0], true, false, 0,
            []⟩ : Game).merge 1 0).1.best_score) :=
  C9_score_monotone_saturating.1
    ⟨0, 0, [2,2,0,0, 0,0,0,0, 0,0,0,0, 0,0,0,0], true, false, 0, []⟩ 1 0
    (by decide)

/-! ### Claim C8: the data-model invariant -/

theorem Q_double {v : Nat} (h : v = 0 ∨ ∃ k, 1 ≤ k ∧ v = 2 ^ k) :
    v * 2 % W32 = 0 ∨ ∃ k, 1 ≤ k ∧ v * 2 % W32 = 2 ^ k := by
  rcases h with rfl | ⟨k, hk1, rfl⟩
  · left
    simp
  · have hpow : (2:Nat) ^ k * 2 = 2 ^ (k + 1) := by ring
    by_cases hk : k + 1 < 32
    · right
      refine ⟨k + 1, by omega, ?_⟩
      rw [hpow]
      unfold W32
      exact Nat.mod_eq_of_lt (Nat.pow_lt_pow_right (by omega) hk)
    · left
      rw [hpow]
      unfold W32
      have hdvd : (2:Nat) ^ 32 ∣ 2 ^ (k + 1) := pow_dvd_pow 2 (by omega)
      exact Nat.mod_eq_zero_of_dvd hdvd

theorem mem_gset {g : List Nat} {n v x : Nat} (h : x ∈ gset g n v) :
    x ∈ g ∨ x = v := List.mem_or_eq_of_mem_set h

theorem mem_lswap {g : List Nat} {a b x : Nat} (h : x ∈ lswap g a b) :
    x ∈ g ∨ x = 0 := by
  unfold lswap at h
  rcases mem_gset h with h1 | h1
  · rcases mem_gset h1 with h2 | h2
    · exact Or.inl h2
    · rcases gget_mem_or_zero g b with h3 | h3
      · exact Or.inl (h2 ▸ h3)
      · exact Or.inr (h2.trans h3)
  · rcases gget_mem_or_zero g a with h3 | h3
    · exact Or.inl (h1 ▸ h3)
    · exact Or.inr (h1.trans h3)

theorem transpose_valid {g : List Nat}
    (h : ∀ v ∈ g, v = 0 ∨ ∃ k, 1 ≤ k ∧ v = 2 ^ k) :
    ∀ v ∈ transpose g, v = 0 ∨ ∃ k, 1 ≤ k ∧ v = 2 ^ k := by
  unfold transpose
  intro v hv
  rcases mem_lswap hv with hv | hv
  · rcases mem_lswap hv with hv | hv
    · rcases mem_lswap hv with hv | hv
      · rcases mem_lswap hv with hv | hv
        · rcases mem_lswap hv with hv | hv
          · rcases mem_lswap hv with hv | hv
            · exact h v hv
            · exact Or.inl hv
          · exact Or.inl hv
        · exact Or.inl hv
      · exact Or.inl hv
    · exact Or.inl hv
  · exact Or.inl hv

theorem delete_zero_valid (pos : Int) {g : List Nat}
    (h : ∀ v ∈ g, v = 0 ∨ ∃ k, 1 ≤ k ∧ v = 2 ^ k) :
    ∀ v ∈ (delete_zero pos g).1, v = 0 ∨ ∃ k, 1 ≤ k ∧ v = 2 ^ k := by
  unfold delete_zero
  refine foldl_inv (fun s : List Nat × Bool =>
    ∀ v ∈ s.1, v = 0 ∨ ∃ k, 1 ≤ k ∧ v = 2 ^ k) _ _ _ h ?_
  intro b i _ hb
  refine foldl_inv (fun s : List Nat × Bool =>
    ∀ v ∈ s.1, v = 0 ∨ ∃ k, 1 ≤ k ∧ v = 2 ^ k) _ _ _ hb ?_
  intro b' j _ hb'
  unfold dzInner
  by_cases h0 : gget b'.1 (idx j i) = 0
  · rw [if_pos h0]
    cases hfd : (intRange (j + 1) (4 - pos)).find?
        (fun k => gget b'.1 (idx k i) ≠ 0) with
    | none => exact hb'
    | some k =>
      intro v hv
      rcases mem_gset hv with h1 | h1
      · rcases mem_gset h1 with h2 | h2
        · exact hb' v h2
        · rcases gget_mem_or_zero b'.1 (idx k i) with h3 | h3
          · exact hb' v (h2 ▸ h3)
          · exact Or.inl (h2.trans h3)
      · exact Or.inl h1
  · rw [if_neg h0]
    exact hb'

theorem mergePass_valid (pos : Int) {st : List Nat × Nat × Nat × Bool}
    (h : ∀ v ∈ st.1, v = 0 ∨ ∃ k, 1 ≤ k ∧ v = 2 ^ k) :
    ∀ v ∈ (mergePass pos st).1, v = 0 ∨ ∃ k, 1 ≤ k ∧ v = 2 ^ k := by
  unfold mergePass
  refine foldl_inv (fun s : List Nat × Nat × Nat × Bool =>
    ∀ v ∈ s.1, v = 0 ∨ ∃ k, 1 ≤ k ∧ v = 2 ^ k) _ _ _ h ?_
  intro b i _ hb
  refine foldl_inv (fun s : List Nat × Nat × Nat × Bool =>
    ∀ v ∈ s.1, v = 0 ∨ ∃ k, 1 ≤ k ∧ v = 2 ^ k) _ _ _ hb ?_
  intro b' j _ hb'
  unfold mgInner
  by_cases hc : gget b'.1 (idx j i) ≠ 0 ∧
      gget b'.1 (idx j i) = gget b'.1 (idx (j + 1) i)
  · rw [if_pos hc]
    intro v hv
    rcases mem_gset hv with h1 | h1
    · rcases mem_gset h1 with h2 | h2
      · exact hb' v h2
      · subst h2
        refine Q_double ?_
        rcases gget_mem_or_zero b'.1 (idx j i) with h3 | h3
        · exact hb' _ h3
        · exact Or.inl h3
    · exact Or.inl h1
  · rw [if_neg hc]
    exact hb'

theorem merge_valid {s : Game} {dir : Nat} {pos : Int}
    (h : ValidGrid s.datas) : ValidGrid (s.merge dir pos).1.datas := by
  obtain ⟨h16, hq⟩ := h
  constructor
  · rw [merge_datas_length]
    exact h16
  · rw [merge_eq]
    show ∀ v ∈ (if dir = 1 then transpose (stage3 s dir pos).1
      else (stage3 s dir pos).1), _
    have hn : ∀ v ∈ normG s dir, v = 0 ∨ ∃ k, 1 ≤ k ∧ v = 2 ^ k := by
      unfold normG
      by_cases hd : dir = 1
      · rw [if_pos hd]
        exact transpose_valid hq
      · rw [if_neg hd]
        exact hq
    have h1 := delete_zero_valid pos hn
    have h2 := @mergePass_valid pos
      ((delete_zero pos (normG s dir)).1, s.score, s.best_score, false) h1
    have h3 := delete_zero_valid pos h2
    unfold stage3 stage2 stage1
    by_cases hd : dir = 1
    · rw [if_pos hd]
      exact transpose_valid h3
    · rw [if_neg hd]
      exact h3

theorem spawn_valid {s s' : Game} {perm : List Nat} {coin : Bool}
    (h : ValidGrid s.datas) (hsp : s.spawn_tile perm coin = some s') :
    ValidGrid s'.datas := by
  obtain ⟨h16, hq⟩ := h
  obtain ⟨i, rest, _, hdatas, _⟩ := spawn_fields hsp
  rw [hdatas]
  constructor
  · rw [length_gset]
    exact h16
  · intro v hv
    rcases mem_gset hv with h1 | h1
    · exact hq v h1
    · rcases coin with _ | _
      · exact Or.inr ⟨2, by omega, by simpa using h1⟩
      · exact Or.inr ⟨1, by omega, by simpa using h1⟩

theorem replicate_valid : ValidGrid (List.replicate 16 0) := by
  constructor
  · simp
  · intro v hv
    left
    exact (List.eq_of_mem_replicate hv)

/-- C8: every engine operation — `new_game`, each directional move
(both the raw move operation and the full key handlers), and
`spawn_tile` under its non-full-grid precondition — preserves the
data-model invariant: the grid always has exactly 16 cells and every
non-zero cell value is a power of two that is at least 2. -/
theorem C8_invariant_preserved :
    (∀ (s : Game) (dir : Nat) (pos : Int), ValidGrid s.datas →
      ValidGrid (s.merge dir pos).1.datas) ∧
    (∀ (s s' : Game) (dir : Nat) (pos : Int) (o : Oracle), ValidGrid s.datas →
      s.moveStep dir pos o = some s' → ValidGrid s'.datas) ∧
    (∀ (s s' : Game) (perm : List Nat) (coin : Bool), ValidGrid s.datas →
      emptyIndices s.datas ≠ [] → s.spawn_tile perm coin = some s' →
      ValidGrid s'.datas) ∧
    (∀ (s s' : Game) (o1 o2 : Oracle), s.new_game o1 o2 = some s' →
      ValidGrid s'.datas) := by
  refine ⟨fun s dir pos h => merge_valid h, ?_, ?_, ?_⟩
  · intro s s' dir pos o h hmv
    rcases moveStep_cases hmv with ⟨_, rfl⟩ | ⟨_, s2, hs2, hfin⟩
    · exact h
    · have hv2 : ValidGrid s2.datas := by
        rcases hs2 with ⟨_, rfl⟩ | ⟨_, hsp⟩
        · exact merge_valid
            (show ValidGrid ({ s with new_tiles := [] } : Game).datas from h)
        · exact spawn_valid (merge_valid
            (show ValidGrid ({ s with new_tiles := [] } : Game).datas from h)) hsp
      rcases hfin with ⟨_, rfl⟩ | ⟨_, rfl⟩
      · exact hv2
      · exact hv2
  · intro s s' perm coin h _ hsp
    exact spawn_valid h hsp
  · intro s s' o1 o2 hng
    obtain ⟨p1, c1⟩ := o1
    obtain ⟨p2, c2⟩ := o2
    obtain ⟨i1, r1, i2, r2, _, _, _, _, _, _, hdatas, _⟩ := new_game_fields hng
    rw [hdatas]
    have h1 : ValidGrid (gset (List.replicate 16 0) i1
        (if (p1, c1).2 then 2 else 4)) := by
      obtain ⟨hl, hq⟩ := replicate_valid
      constructor
      · rw [length_gset]
        exact hl
      · intro v hv
        rcases mem_gset hv with hm | hm
        · exact hq v hm
        · rcases c1 with _ | _
          · exact Or.inr ⟨2, by omega, by simpa using hm⟩
          · exact Or.inr ⟨1, by omega, by simpa using hm⟩
    obtain ⟨hl, hq⟩ := h1
    constructor
    · rw [length_gset]
      exact hl
    · intro v hv
      rcases mem_gset hv with hm | hm
      · exact hq v hm
      · rcases c2 with _ | _
        · exact Or.inr ⟨2, by omega, by simpa using hm⟩
        · exact Or.inr ⟨1, by omega, by simpa using hm⟩

/-- Witness for C8 at a concrete input: the invariant holds after moving
the valid grid with row `[2,2,0,0]` Left. -/
theorem C8_witness :
    ValidGrid ((⟨0, 0, [2,2,0,0, 0,0,0,0, 0,0,0,0, 0,0,0,0], true, false, 0,
      []⟩ : Game).merge 1 0).1.datas :=
  C8_invariant_preserved.1
    ⟨0, 0, [2,2,0,0, 0,0,0,0, 0,0,0,0, 0,0,0,0], true, false, 0, []⟩ 1 0
    ⟨by decide, by
      intro v hv
      fin_cases hv <;>
        first
          | exact Or.inl rfl
          | exact Or.inr ⟨1, by omega, rfl⟩⟩

/-! ### Claim C3 -/

/-- Counterexample to C3 as stated: on a full terminal grid with
`is_started = true`, the Up handler reports `moved = false`, yet the
game-over check still runs and flips `is_game_over` from `false` to
`true` (and `is_started` to `false`) — so a no-op move does not leave
`started`/`game_over` unchanged on every started state, and a game-over
check is in fact performed. -/
theorem C3_counterexample :
    ((⟨0, 0, [2,4,2,4, 4,2,4,2, 2,4,2,4, 4,2,4,2], true, false, 0, []⟩ :
        Game).merge 0 0).2 = false ∧
      (⟨0, 0, [2,4,2,4, 4,2,4,2, 2,4,2,4, 4,2,4,2], true, false, 0, []⟩ :
        Game).is_started = true ∧
      (⟨0, 0, [2,4,2,4, 4,2,4,2, 2,4,2,4, 4,2,4,2], true, false, 0, []⟩ :
        Game).is_game_over = false ∧
      ((⟨0, 0, [2,4,2,4, 4,2,4,2, 2,4,2,4, 4,2,4,2], true, false, 0, []⟩ :
        Game).move_up ([], false)).map Game.is_game_over = some true ∧
      ((⟨0, 0, [2,4,2,4, 4,2,4,2, 2,4,2,4, 4,2,4,2], true, false, 0, []⟩ :
        Game).move_up ([], false)).map Game.is_started = some false := by
  decide

/-- C3 (amended): for every started 16-cell game state and every
direction, if the move operation reports `moved = false` the handler
spawns no tile, and leaves the grid, the score, the best score and the
spawn counter unchanged (`new_tiles` is cleared, as at the start of
every player move); the game-over check IS still performed, so `started`
and `game_over` are unchanged provided the grid is not terminal — on a
terminal grid (unreachable with `started = true` in normal play) the
handler sets `game_over`. -/
theorem C3_noop_move_frame (s : Game) (d : Dir) (o : Oracle)
    (h16 : s.datas.length = 16) (hst : s.is_started = true)
    (hmv : (({ s with new_tiles := [] } : Game).merge (dirDP d).1
      (dirDP d).2).2 = false) :
    ∃ s', s.moveStep (dirDP d).1 (dirDP d).2 o = some s' ∧
      s'.datas = s.datas ∧ s'.score = s.score ∧
      s'.best_score = s.best_score ∧ s'.spawn_count = s.spawn_count ∧
      s'.new_tiles = [] ∧
      (check_fail s.datas = false →
        s'.is_started = s.is_started ∧ s'.is_game_over = s.is_game_over) ∧
      (check_fail s.datas = true →
        s'.is_started = false ∧ s'.is_game_over = true) := by
  have hd : (dirDP d).1 = 0 ∨ (dirDP d).1 = 1 := by cases d <;> simp [dirDP]
  have hpos : (dirDP d).2 = 0 ∨ (dirDP d).2 = 3 := by cases d <;> simp [dirDP]
  obtain ⟨hda, hsc, hbs⟩ := merge_not_moved hd hpos
    (show ({ s with new_tiles := [] } : Game).datas.length = 16 from h16) hmv
  unfold Game.moveStep
  rw [if_neg (show ¬s.is_started = false by rw [hst]; simp)]
  rw [hmv]
  rw [show (if false = true then
      (({ s with new_tiles := [] } : Game).merge (dirDP d).1
        (dirDP d).2).1.spawn_tile o.1 o.2
    else some (({ s with new_tiles := [] } : Game).merge (dirDP d).1
      (dirDP d).2).1) =
      some (({ s with new_tiles := [] } : Game).merge (dirDP d).1
        (dirDP d).2).1 by simp]
  simp only [Option.map]
  have hda' : (({ s with new_tiles := [] } : Game).merge (dirDP d).1
      (dirDP d).2).1.datas = s.datas := hda
  rcases hcf : check_fail s.datas with _ | _
  · refine ⟨(({ s with new_tiles := [] } : Game).merge (dirDP d).1
      (dirDP d).2).1, ?_, hda', hsc, hbs, rfl, rfl, ?_, ?_⟩
    · rw [show check_fail ((({ s with new_tiles := [] } : Game).merge (dirDP d).1
        (dirDP d).2).1).datas = false by rw [hda']; exact hcf]
      rw [if_neg (by simp)]
    · intro _
      exact ⟨rfl, rfl⟩
    · intro hco
      simp at hco
  · refine ⟨{ (({ s with new_tiles := [] } : Game).merge (dirDP d).1
        (dirDP d).2).1 with is_started := false, is_game_over := true },
      ?_, hda', hsc, hbs, rfl, rfl, ?_, ?_⟩
    · rw [show check_fail ((({ s with new_tiles := [] } : Game).merge (dirDP d).1
        (dirDP d).2).1).datas = true by rw [hda']; exact hcf]
      rw [if_pos rfl]
    · intro hco
      simp at hco
    · intro _
      exact ⟨rfl, rfl⟩

/-- Witness for the amended C3 at a concrete input: moving the lone `2`
in the top-left corner Up is a no-op; the handler changes nothing. -/
theorem C3_witness :
    ∃ s', (⟨7, 9, [2,0,0,0, 0,0,0,0, 0,0,0,0, 0,0,0,0], true, false, 3,
        []⟩ : Game).moveStep (dirDP Dir.up).1 (dirDP Dir.up).2 ([], true) =
        some s' ∧
      s'.datas = [2,0,0,0, 0,0,0,0, 0,0,0,0, 0,0,0,0] ∧ s'.score = 7 ∧
      s'.best_score = 9 ∧ s'.spawn_count = 3 ∧ s'.new_tiles = [] ∧
      (check_fail [2,0,0,0, 0,0,0,0, 0,0,0,0, 0,0,0,0] = false →
        s'.is_started = true ∧ s'.is_game_over = false) ∧
      (check_fail [2,0,0,0, 0,0,0,0, 0,0,0,0, 0,0,0,0] = true →
        s'.is_started = false ∧ s'.is_game_over = true) :=
  C3_noop_move_frame
    ⟨7, 9, [2,0,0,0, 0,0,0,0, 0,0,0,0, 0,0,0,0], true, false, 3, []⟩
    Dir.up ([], true) (by decide) (by decide) (by decide)

/-! ### Claim C10 -/

theorem moveStep_inv {s s' : Game} {dir : Nat} {pos : Int} {o : Oracle}
    (h16 : s.datas.length = 16)
    (hnb : ¬(s.is_started = true ∧ s.is_game_over = true))
    (hgo : s.is_game_over = true → TerminalP s.datas)
    (h : s.moveStep dir pos o = some s') :
    s'.datas.length = 16 ∧ ¬(s'.is_started = true ∧ s'.is_game_over = true) ∧
      (s'.is_game_over = true → TerminalP s'.datas) := by
  rcases moveStep_cases h with ⟨_, rfl⟩ | ⟨hst, s2, hs2, hfin⟩
  · exact ⟨h16, hnb, hgo⟩
  · have h16m : (({ s with new_tiles := [] } : Game).merge dir pos).1.datas.length
        = 16 := by
      rw [merge_datas_length]
      exact h16
    have h162 : s2.datas.length = 16 := by
      rcases hs2 with ⟨_, rfl⟩ | ⟨_, hsp⟩
      · exact h16m
      · obtain ⟨i, rest, _, hdatas, _⟩ := spawn_fields hsp
        rw [hdatas, length_gset]
        exact h16m
    have hs2go : s2.is_game_over = s.is_game_over := by
      rcases hs2 with ⟨_, rfl⟩ | ⟨_, hsp⟩
      · rfl
      · obtain ⟨i, rest, _, _, _, _, _, higo, _⟩ := spawn_fields hsp
        exact higo
    have hgof : s.is_game_over = false := by
      rcases hb : s.is_game_over with _ | _
      · rfl
      · exact absurd ⟨hst, hb⟩ hnb
    rcases hfin with ⟨hcf, rfl⟩ | ⟨hcf, rfl⟩
    · refine ⟨h162, ?_, ?_⟩
      · intro hb
        have hb1 := hb.1
        simp at hb1
      · intro _
        exact (check_fail_iff h162).mp hcf
    · refine ⟨h162, ?_, ?_⟩
      · intro hb
        have hb2 := hb.2
        rw [hs2go, hgof] at hb2
        simp at hb2
      · intro hb
        rw [hs2go, hgof] at hb
        simp at hb

theorem new_game_inv {s s' : Game} {o1 o2 : Oracle}
    (h : s.new_game o1 o2 = some s') :
    s'.datas.length = 16 ∧ ¬(s'.is_started = true ∧ s'.is_game_over = true) ∧
      (s'.is_game_over = true → TerminalP s'.datas) := by
  obtain ⟨i1, r1, i2, r2, _, _, _, _, hist, higo, hdatas, _⟩ := new_game_fields h
  refine ⟨?_, ?_, ?_⟩
  · rw [hdatas, length_gset, length_gset]
    simp
  · intro hb
    rw [higo] at hb
    simp at hb
  · intro hb
    rw [higo] at hb
    simp at hb

theorem reachable_inv {b : Nat} {s : Game} (h : Reachable b s) :
    s.datas.length = 16 ∧ ¬(s.is_started = true ∧ s.is_game_over = true) ∧
      (s.is_game_over = true → TerminalP s.datas) := by
  unfold Reachable at h
  induction h with
  | refl =>
    refine ⟨by simp [Game.init], ?_, ?_⟩
    · intro hb
      have := hb.1
      simp [Game.init] at this
    · intro hb
      simp [Game.init] at hb
  | tail hprev hstep ih =>
    obtain ⟨ih16, ihnb, ihgo⟩ := ih
    cases hstep with
    | newg o1 o2 t' hng => exact new_game_inv hng
    | up a o hmv => exact moveStep_inv ih16 ihnb ihgo hmv
    | down a o hmv => exact moveStep_inv ih16 ihnb ihgo hmv
    | left a o hmv => exact moveStep_inv ih16 ihnb ihgo hmv
    | right a o hmv => exact moveStep_inv ih16 ihnb ihgo hmv

/-- C10: in every game state reachable from the freshly constructed
state through `new_game` and the four key handlers (under any outcomes
of the random source), `is_started` and `is_game_over` are never both
true, and whenever `is_game_over` is true the grid is terminal (no empty
cell and no equal adjacent pair). -/
theorem C10_reachable_invariant (b : Nat) (s : Game) (h : Reachable b s) :
    ¬(s.is_started = true ∧ s.is_game_over = true) ∧
      (s.is_game_over = true → TerminalP s.datas) := by
  obtain ⟨_, hnb, hgo⟩ := reachable_inv h
  exact ⟨hnb, hgo⟩

/-- Witness for C10 at a concrete input: the initial state itself. -/
theorem C10_witness :
    ¬((Game.init 5).is_started = true ∧ (Game.init 5).is_game_over = true) ∧
      ((Game.init 5).is_game_over = true → TerminalP (Game.init 5).datas) :=
  C10_reachable_invariant 5 (Game.init 5) Relation.ReflTransGen.refl

/-! ### Sum conservation -/

theorem S16_gset {g : List Nat} {n : Nat} (h16 : g.length = 16) (hn : n < 16)
    (v : Nat) : S16 (gset g n v) + gget g n = S16 g + v :=
  sumPhi_gset (fun _ x => x) h16 hn v

theorem gget_le_S16 {g : List Nat} {n : Nat} (hn : n < 16) :
    gget g n ≤ S16 g := by
  have hmem : n ∈ Finset.range 16 := Finset.mem_range.mpr hn
  have h := Finset.sum_erase_add (Finset.range 16) (fun m => gget g m) hmem
  dsimp only at h
  unfold S16
  omega

theorem S16_lswap {g : List Nat} {a b : Nat} (h16 : g.length = 16) (ha : a < 16)
    (hb : b < 16) (hab : a ≠ b) : S16 (lswap g a b) = S16 g := by
  have e1 := S16_gset h16 ha (gget g b)
  have h16a : (gset g a (gget g b)).length = 16 := by rw [length_gset]; exact h16
  have e2 := S16_gset h16a hb (gget g a)
  rw [gget_gset_ne hab] at e2
  unfold lswap
  omega

theorem S16_transpose {g : List Nat} (h16 : g.length = 16) :
    S16 (transpose g) = S16 g := by
  have l1 : (lswap g 1 4).length = 16 := by rw [length_lswap]; exact h16
  have l2 : (lswap (lswap g 1 4) 2 8).length = 16 := by rw [length_lswap]; exact l1
  have l3 : (lswap (lswap (lswap g 1 4) 2 8) 3 12).length = 16 := by
    rw [length_lswap]; exact l2
  have l4 : (lswap (lswap (lswap (lswap g 1 4) 2 8) 3 12) 6 9).length = 16 := by
    rw [length_lswap]; exact l3
  have l5 : (lswap (lswap (lswap (lswap (lswap g 1 4) 2 8) 3 12) 6 9) 7 13).length
      = 16 := by
    rw [length_lswap]; exact l4
  have e1 : S16 (lswap g 1 4) = S16 g := S16_lswap h16 (by omega) (by omega) (by omega)
  have e2 : S16 (lswap (lswap g 1 4) 2 8) = S16 (lswap g 1 4) :=
    S16_lswap l1 (by omega) (by omega) (by omega)
  have e3 : S16 (lswap (lswap (lswap g 1 4) 2 8) 3 12) =
      S16 (lswap (lswap g 1 4) 2 8) := S16_lswap l2 (by omega) (by omega) (by omega)
  have e4 : S16 (lswap (lswap (lswap (lswap g 1 4) 2 8) 3 12) 6 9) =
      S16 (lswap (lswap (lswap g 1 4) 2 8) 3 12) :=
    S16_lswap l3 (by omega) (by omega) (by omega)
  have e5 : S16 (lswap (lswap (lswap (lswap (lswap g 1 4) 2 8) 3 12) 6 9) 7 13) =
      S16 (lswap (lswap (lswap (lswap g 1 4) 2 8) 3 12) 6 9) :=
    S16_lswap l4 (by omega) (by omega) (by omega)
  have e6 : S16 (lswap (lswap (lswap (lswap (lswap (lswap g 1 4) 2 8) 3 12) 6 9)
        7 13) 11 14) =
      S16 (lswap (lswap (lswap (lswap (lswap g 1 4) 2 8) 3 12) 6 9) 7 13) :=
    S16_lswap l5 (by omega) (by omega) (by omega)
  unfold transpose
  rw [e6, e5, e4, e3, e2, e1]

theorem delete_zero_sum {pos : Int} {g : List Nat} (hpos : pos = 0 ∨ pos = 3)
    (h16 : g.length = 16) :
    S16 (delete_zero pos g).1 = S16 g := by
  unfold delete_zero
  have main : ((List.range 4).foldl
      (fun s i => (intRange (0 - pos) (4 - pos)).foldl
        (fun s' j => dzInner pos i j s') s) (g, false)).1.length = 16 ∧
      S16 ((List.range 4).foldl
        (fun s i => (intRange (0 - pos) (4 - pos)).foldl
          (fun s' j => dzInner pos i j s') s) (g, false)).1 = S16 g := by
    refine foldl_inv (fun s : List Nat × Bool =>
      s.1.length = 16 ∧ S16 s.1 = S16 g) _ _ _ ⟨h16, rfl⟩ ?_
    intro b i hi hb
    refine foldl_inv (fun s : List Nat × Bool =>
      s.1.length = 16 ∧ S16 s.1 = S16 g) _ _ _ hb ?_
    intro b' j hj hb'
    obtain ⟨hL, hS⟩ := hb'
    unfold dzInner
    by_cases h0 : gget b'.1 (idx j i) = 0
    · rw [if_pos h0]
      cases hfd : (intRange (j + 1) (4 - pos)).find?
          (fun k => gget b'.1 (idx k i) ≠ 0) with
      | none => exact ⟨hL, hS⟩
      | some k =>
        have hkmem : k ∈ intRange (j + 1) (4 - pos) := List.mem_of_find?_eq_some hfd
        obtain ⟨hjlt, hklt, hjk, _⟩ :=
          dz_move_facts hpos (by simpa using hi) hj hkmem
        have hL1 : (gset b'.1 (idx j i) (gget b'.1 (idx k i))).length = 16 := by
          rw [length_gset]; exact hL
        have e1 := S16_gset hL hjlt (gget b'.1 (idx k i))
        rw [h0] at e1
        have e2 := S16_gset hL1 hklt 0
        rw [gget_gset_ne hjk] at e2
        refine ⟨by simp [length_gset, hL], ?_⟩
        dsimp only
        omega
    · rw [if_neg h0]
      exact ⟨hL, hS⟩
  exact main.2

theorem mergePass_sum {pos : Int} (hpos : pos = 0 ∨ pos = 3) {g : List Nat}
    (sc bs : Nat) (h16 : g.length = 16) (hB : S16 g ≤ 2 ^ 31 - 1) :
    S16 (mergePass pos (g, sc, bs, false)).1 = S16 g := by
  unfold mergePass
  have main : ((List.range 4).foldl
      (fun st i => (intRange (0 - pos) (3 - pos)).foldl
        (fun st' j => mgInner pos i j st') st) (g, sc, bs, false)).1.length = 16 ∧
      S16 ((List.range 4).foldl
        (fun st i => (intRange (0 - pos) (3 - pos)).foldl
          (fun st' j => mgInner pos i j st') st) (g, sc, bs, false)).1 = S16 g := by
    refine foldl_inv (fun s : List Nat × Nat × Nat × Bool =>
      s.1.length = 16 ∧ S16 s.1 = S16 g) _ _ _ ⟨h16, rfl⟩ ?_
    intro b i hi hb
    refine foldl_inv (fun s : List Nat × Nat × Nat × Bool =>
      s.1.length = 16 ∧ S16 s.1 = S16 g) _ _ _ hb ?_
    intro b' j hj hb'
    obtain ⟨hL, hS⟩ := hb'
    unfold mgInner
    by_cases hc : gget b'.1 (idx j i) ≠ 0 ∧
        gget b'.1 (idx j i) = gget b'.1 (idx (j + 1) i)
    · rw [if_pos hc]
      obtain ⟨hAlt, hBlt, hABne, _, _⟩ :=
        mg_move_facts hpos (by simpa using hi) hj
      have hvle : gget b'.1 (idx j i) ≤ S16 b'.1 := gget_le_S16 hAlt
      have hnov : gget b'.1 (idx j i) * 2 % W32 = gget b'.1 (idx j i) * 2 := by
        apply Nat.mod_eq_of_lt
        unfold W32
        omega
      have hL1 : (gset b'.1 (idx j i)
          (gget b'.1 (idx j i) * 2 % W32)).length = 16 := by
        rw [length_gset]; exact hL
      have e1 := S16_gset hL hAlt (gget b'.1 (idx j i) * 2 % W32)
      have e2 := S16_gset hL1 hBlt 0
      rw [gget_gset_ne hABne, ← hc.2] at e2
      refine ⟨by simp [length_gset, hL], ?_⟩
      dsimp only
      omega
    · rw [if_neg hc]
      exact ⟨hL, hS⟩
  exact main.2

theorem merge_sum {s : Game} {dir : Nat} {pos : Int}
    (hd : dir = 0 ∨ dir = 1) (hpos : pos = 0 ∨ pos = 3)
    (h16 : s.datas.length = 16) (hB : S16 s.datas ≤ 2 ^ 31 - 1) :
    S16 (s.merge dir pos).1.datas = S16 s.datas := by
  have h160 : (normG s dir).length = 16 := normG_length h16
  have hSn : S16 (normG s dir) = S16 s.datas := by
    unfold normG
    rcases hd with rfl | rfl
    · simp
    · rw [if_pos rfl]
      exact S16_transpose h16
  have hd1 := delete_zero_sum hpos h160
  obtain ⟨dL, _, _, _, _⟩ := delete_zero_props hpos h160
  have hm := mergePass_sum hpos s.score s.best_score dL (by omega)
  obtain ⟨mL, _, _, _, _⟩ := mergePass_props hpos dL s.score s.best_score
  have hd3 := delete_zero_sum hpos mL
  obtain ⟨d3L, _, _, _, _⟩ := delete_zero_props hpos mL
  rw [merge_eq]
  show S16 (if dir = 1 then transpose (stage3 s dir pos).1
    else (stage3 s dir pos).1) = S16 s.datas
  unfold stage3 stage2 stage1
  rcases hd with rfl | rfl
  · rw [if_neg (by omega : ¬((0:Nat) = 1))]
    omega
  · rw [if_pos rfl, S16_transpose d3L]
    omega

/-! ### Column extraction: K-lemmas -/

theorem colOf_length (g : List Nat) (i : Nat) : (colOf g i).length = 4 := rfl

theorem cget_colOf {g : List Nat} {i : Nat} (h16 : g.length = 16) (hi : i < 4) :
    ∀ r : Nat, gget g (r * 4 + i) = cget (colOf g i) r := by
  intro r
  match r with
  | 0 => simp [colOf, cget, gget]
  | 1 =>
    show gget g (1 * 4 + i) = cget (colOf g i) 1
    rw [show (1 * 4 + i : Nat) = 4 + i from by omega]
    simp [colOf, cget]
  | 2 =>
    show gget g (2 * 4 + i) = cget (colOf g i) 2
    rw [show (2 * 4 + i : Nat) = 8 + i from by omega]
    simp [colOf, cget]
  | 3 =>
    show gget g (3 * 4 + i) = cget (colOf g i) 3
    rw [show (3 * 4 + i : Nat) = 12 + i from by omega]
    simp [colOf, cget]
  | (n + 4) =>
    have h1 : gget g ((n + 4) * 4 + i) = 0 := gget_oob (by omega)
    have h2 : cget (colOf g i) (n + 4) = 0 := by
      show gget (colOf g i) (n + 4) = 0
      exact gget_oob (by rw [colOf_length]; omega)
    rw [h1, h2]

theorem colOf_gset_self {g : List Nat} {i : Nat} (h16 : g.length = 16)
    (hi : i < 4) : ∀ r v : Nat, colOf (gset g (r * 4 + i) v) i = (colOf g i).set r v := by
  intro r v
  match r with
  | 0 =>
    rw [show (0 * 4 + i : Nat) = i from by omega]
    show [gget (gset g i v) i, gget (gset g i v) (4 + i), gget (gset g i v) (8 + i),
      gget (gset g i v) (12 + i)] = (colOf g i).set 0 v
    rw [gget_gset_self (by omega) v,
      gget_gset_ne (show i ≠ 4 + i from by omega) v,
      gget_gset_ne (show i ≠ 8 + i from by omega) v,
      gget_gset_ne (show i ≠ 12 + i from by omega) v]
    simp [colOf]
  | 1 =>
    rw [show (1 * 4 + i : Nat) = 4 + i from by omega]
    show [gget (gset g (4 + i) v) i, gget (gset g (4 + i) v) (4 + i),
      gget (gset g (4 + i) v) (8 + i), gget (gset g (4 + i) v) (12 + i)] =
      (colOf g i).set 1 v
    rw [gget_gset_self (by omega) v,
      gget_gset_ne (show 4 + i ≠ i from by omega) v,
      gget_gset_ne (show 4 + i ≠ 8 + i from by omega) v,
      gget_gset_ne (show 4 + i ≠ 12 + i from by omega) v]
    simp [colOf]
  | 2 =>
    rw [show (2 * 4 + i : Nat) = 8 + i from by omega]
    show [gget (gset g (8 + i) v) i, gget (gset g (8 + i) v) (4 + i),
      gget (gset g (8 + i) v) (8 + i), gget (gset g (8 + i) v) (12 + i)] =
      (colOf g i).set 2 v
    rw [gget_gset_self (by omega) v,
      gget_gset_ne (show 8 + i ≠ i from by omega) v,
      gget_gset_ne (show 8 + i ≠ 4 + i from by omega) v,
      gget_gset_ne (show 8 + i ≠ 12 + i from by omega) v]
    simp [colOf]
  | 3 =>
    rw [show (3 * 4 + i : Nat) = 12 + i from by omega]
    show [gget (gset g (12 + i) v) i, gget (gset g (12 + i) v) (4 + i),
      gget (gset g (12 + i) v) (8 + i), gget (gset g (12 + i) v) (12 + i)] =
      (colOf g i).set 3 v
    rw [gget_gset_self (by omega) v,
      gget_gset_ne (show 12 + i ≠ i from by omega) v,
      gget_gset_ne (show 12 + i ≠ 4 + i from by omega) v,
      gget_gset_ne (show 12 + i ≠ 8 + i from by omega) v]
    simp [colOf]
  | (n + 4) =>
    rw [gset_oob (by omega) v]
    rw [List.set_eq_of_length_le (by rw [colOf_length]; omega)]

theorem colOf_gset_other {g : List Nat} {i i' : Nat} (hi : i < 4) (hi' : i' < 4)
    (hne : i' ≠ i) (r v : Nat) : colOf (gset g (r * 4 + i) v) i' = colOf g i' := by
  show [gget (gset g (r * 4 + i) v) i', gget (gset g (r * 4 + i) v) (4 + i'),
    gget (gset g (r * 4 + i) v) (8 + i'), gget (gset g (r * 4 + i) v) (12 + i')] =
    colOf g i'
  rw [gget_gset_ne (show r * 4 + i ≠ i' from by omega) v,
    gget_gset_ne (show r * 4 + i ≠ 4 + i' from by omega) v,
    gget_gset_ne (show r * 4 + i ≠ 8 + i' from by omega) v,
    gget_gset_ne (show r * 4 + i ≠ 12 + i' from by omega) v]
  rfl

/-! ### Column simulation of the slide pass -/

theorem find?_congr {α : Type} {p q : α → Bool} (h : ∀ a, p a = q a) :
    ∀ l : List α, l.find? p = l.find? q
  | [] => rfl
  | a :: l => by
    rw [List.find?_cons, List.find?_cons, h a]
    cases q a with
    | true => rfl
    | false => exact find?_congr h l

theorem dzInner_col {pos : Int} {i : Nat} (hi : i < 4) (j : Int)
    {s : List Nat × Bool} (h16 : s.1.length = 16) :
    (dzInner pos i j s).1.length = 16 ∧
    colOf (dzInner pos i j s).1 i = (dzColInner pos j (colOf s.1 i, s.2)).1 ∧
    (dzInner pos i j s).2 = (dzColInner pos j (colOf s.1 i, s.2)).2 ∧
    (∀ i', i' < 4 → i' ≠ i → colOf (dzInner pos i j s).1 i' = colOf s.1 i') := by
  have hK := cget_colOf h16 hi
  have hfind : (intRange (j + 1) (4 - pos)).find?
      (fun k => decide (gget s.1 (idx k i) ≠ 0)) =
      (intRange (j + 1) (4 - pos)).find?
      (fun k => decide (cget (colOf s.1 i) k.natAbs ≠ 0)) := by
    apply find?_congr
    intro k
    rw [show idx k i = k.natAbs * 4 + i from rfl, hK k.natAbs]
  unfold dzInner dzColInner
  rw [show idx j i = j.natAbs * 4 + i from rfl, hK j.natAbs]
  by_cases h0 : cget (colOf s.1 i) j.natAbs = 0
  · rw [if_pos h0, if_pos h0, hfind]
    cases hfd : (intRange (j + 1) (4 - pos)).find?
        (fun k => decide (cget (colOf s.1 i) k.natAbs ≠ 0)) with
    | none => exact ⟨h16, rfl, rfl, fun _ _ _ => rfl⟩
    | some k =>
      refine ⟨by simp [length_gset, h16], ?_, rfl, ?_⟩
      · show colOf (gset (gset s.1 (idx j i) (gget s.1 (idx k i))) (idx k i) 0) i =
          ((colOf s.1 i).set j.natAbs (cget (colOf s.1 i) k.natAbs)).set k.natAbs 0
        rw [show idx k i = k.natAbs * 4 + i from rfl,
          show idx j i = j.natAbs * 4 + i from rfl,
          colOf_gset_self (by rw [length_gset]; exact h16) hi,
          colOf_gset_self h16 hi, hK k.natAbs]
      · intro i' hi' hne
        show colOf (gset (gset s.1 (idx j i) (gget s.1 (idx k i))) (idx k i) 0) i' =
          colOf s.1 i'
        rw [show idx k i = k.natAbs * 4 + i from rfl,
          show idx j i = j.natAbs * 4 + i from rfl,
          colOf_gset_other hi hi' hne, colOf_gset_other hi hi' hne]
  · rw [if_neg h0, if_neg h0]
    exact ⟨h16, rfl, rfl, fun _ _ _ => rfl⟩

theorem dzFold_col {pos : Int} {i : Nat} (hi : i < 4) :
    ∀ (js : List Int) (s : List Nat × Bool), s.1.length = 16 →
    (js.foldl (fun t j => dzInner pos i j t) s).1.length = 16 ∧
    colOf (js.foldl (fun t j => dzInner pos i j t) s).1 i =
      (js.foldl (fun t j => dzColInner pos j t) (colOf s.1 i, s.2)).1 ∧
    (js.foldl (fun t j => dzInner pos i j t) s).2 =
      (js.foldl (fun t j => dzColInner pos j t) (colOf s.1 i, s.2)).2 ∧
    (∀ i', i' < 4 → i' ≠ i →
      colOf (js.foldl (fun t j => dzInner pos i j t) s).1 i' = colOf s.1 i')
  | [], s, h16 => ⟨h16, rfl, rfl, fun _ _ _ => rfl⟩
  | j :: js, s, h16 => by
    obtain ⟨hL, hcol, hflag, hframe⟩ := dzInner_col hi j h16
    obtain ⟨ihL, ihcol, ihflag, ihframe⟩ := dzFold_col hi js (dzInner pos i j s) hL
    have hpair : (colOf (dzInner pos i j s).1 i, (dzInner pos i j s).2) =
        dzColInner pos j (colOf s.1 i, s.2) := by rw [hcol, hflag]
    rw [List.foldl_cons, List.foldl_cons]
    refine ⟨ihL, ?_, ?_, ?_⟩
    · rw [ihcol, hpair]
    · rw [ihflag, hpair]
    · intro i' hi' hne
      rw [ihframe i' hi' hne, hframe i' hi' hne]

theorem delete_zero_cols {pos : Int} {g : List Nat} (h16 : g.length = 16) :
    ∀ i, i < 4 → ∃ f : Bool,
      colOf (delete_zero pos g).1 i = (dzCol pos (colOf g i, f)).1 := by
  unfold delete_zero
  rw [show List.range 4 = [0, 1, 2, 3] from rfl]
  simp only [List.foldl_cons, List.foldl_nil]
  obtain ⟨L0, C0, X0, Fr0⟩ := dzFold_col (show (0 : Nat) < 4 from by omega)
    (intRange (0 - pos) (4 - pos)) (g, false) h16
  obtain ⟨L1, C1, X1, Fr1⟩ := dzFold_col (show (1 : Nat) < 4 from by omega)
    (intRange (0 - pos) (4 - pos))
    ((intRange (0 - pos) (4 - pos)).foldl (fun t j => dzInner pos 0 j t) (g, false)) L0
  obtain ⟨L2, C2, X2, Fr2⟩ := dzFold_col (show (2 : Nat) < 4 from by omega)
    (intRange (0 - pos) (4 - pos))
    ((intRange (0 - pos) (4 - pos)).foldl (fun t j => dzInner pos 1 j t)
      ((intRange (0 - pos) (4 - pos)).foldl (fun t j => dzInner pos 0 j t)
        (g, false))) L1
  obtain ⟨L3, C3, X3, Fr3⟩ := dzFold_col (show (3 : Nat) < 4 from by omega)
    (intRange (0 - pos) (4 - pos))
    ((intRange (0 - pos) (4 - pos)).foldl (fun t j => dzInner pos 2 j t)
      ((intRange (0 - pos) (4 - pos)).foldl (fun t j => dzInner pos 1 j t)
        ((intRange (0 - pos) (4 - pos)).foldl (fun t j => dzInner pos 0 j t)
          (g, false)))) L2
  intro i hi
  interval_cases i
  · refine ⟨false, ?_⟩
    rw [Fr3 0 (by omega) (by omega), Fr2 0 (by omega) (by omega),
      Fr1 0 (by omega) (by omega), C0]
    rfl
  · refine ⟨((intRange (0 - pos) (4 - pos)).foldl
      (fun t j => dzInner pos 0 j t) (g, false)).2, ?_⟩
    rw [Fr3 1 (by omega) (by omega), Fr2 1 (by omega) (by omega), C1,
      Fr0 1 (by omega) (by omega)]
    rfl
  · refine ⟨((intRange (0 - pos) (4 - pos)).foldl (fun t j => dzInner pos 1 j t)
      ((intRange (0 - pos) (4 - pos)).foldl (fun t j => dzInner pos 0 j t)
        (g, false))).2, ?_⟩
    rw [Fr3 2 (by omega) (by omega), C2, Fr1 2 (by omega) (by omega),
      Fr0 2 (by omega) (by omega)]
    rfl
  · refine ⟨((intRange (0 - pos) (4 - pos)).foldl (fun t j => dzInner pos 2 j t)
      ((intRange (0 - pos) (4 - pos)).foldl (fun t j => dzInner pos 1 j t)
        ((intRange (0 - pos) (4 - pos)).foldl (fun t j => dzInner pos 0 j t)
          (g, false)))).2, ?_⟩
    rw [C3, Fr2 3 (by omega) (by omega), Fr1 3 (by omega) (by omega),
      Fr0 3 (by omega) (by omega)]
    rfl

/-! ### Column simulation of the merge pass -/

theorem mgInner_col {pos : Int} {i : Nat} (hi : i < 4) (j : Int)
    {s : List Nat × Nat × Nat × Bool} (h16 : s.1.length = 16) :
    (mgInner pos i j s).1.length = 16 ∧
    colOf (mgInner pos i j s).1 i = (mgColInner j (colOf s.1 i, s.2)).1 ∧
    (mgInner pos i j s).2 = (mgColInner j (colOf s.1 i, s.2)).2 ∧
    (∀ i', i' < 4 → i' ≠ i → colOf (mgInner pos i j s).1 i' = colOf s.1 i') := by
  have hK := cget_colOf h16 hi
  unfold mgInner mgColInner
  rw [show idx j i = j.natAbs * 4 + i from rfl,
    show idx (j + 1) i = (j + 1).natAbs * 4 + i from rfl,
    hK j.natAbs, hK (j + 1).natAbs]
  by_cases hc : cget (colOf s.1 i) j.natAbs ≠ 0 ∧
      cget (colOf s.1 i) j.natAbs = cget (colOf s.1 i) (j + 1).natAbs
  · rw [if_pos hc, if_pos hc]
    refine ⟨by simp [length_gset, h16], ?_, rfl, ?_⟩
    · show colOf (gset (gset s.1 (j.natAbs * 4 + i)
          (cget (colOf s.1 i) j.natAbs * 2 % W32)) ((j + 1).natAbs * 4 + i) 0) i =
        ((colOf s.1 i).set j.natAbs
          (cget (colOf s.1 i) j.natAbs * 2 % W32)).set (j + 1).natAbs 0
      rw [colOf_gset_self (by rw [length_gset]; exact h16) hi,
        colOf_gset_self h16 hi]
    · intro i' hi' hne
      show colOf (gset (gset s.1 (j.natAbs * 4 + i)
          (cget (colOf s.1 i) j.natAbs * 2 % W32)) ((j + 1).natAbs * 4 + i) 0) i' =
        colOf s.1 i'
      rw [colOf_gset_other hi hi' hne, colOf_gset_other hi hi' hne]
  · rw [if_neg hc, if_neg hc]
    exact ⟨h16, rfl, rfl, fun _ _ _ => rfl⟩

theorem mgFold_col {pos : Int} {i : Nat} (hi : i < 4) :
    ∀ (js : List Int) (s : List Nat × Nat × Nat × Bool), s.1.length = 16 →
    (js.foldl (fun t j => mgInner pos i j t) s).1.length = 16 ∧
    colOf (js.foldl (fun t j => mgInner pos i j t) s).1 i =
      (js.foldl (fun t j => mgColInner j t) (colOf s.1 i, s.2)).1 ∧
    (js.foldl (fun t j => mgInner pos i j t) s).2 =
      (js.foldl (fun t j => mgColInner j t) (colOf s.1 i, s.2)).2 ∧
    (∀ i', i' < 4 → i' ≠ i →
      colOf (js.foldl (fun t j => mgInner pos i j t) s).1 i' = colOf s.1 i')
  | [], s, h16 => ⟨h16, rfl, rfl, fun _ _ _ => rfl⟩
  | j :: js, s, h16 => by
    obtain ⟨hL, hcol, hflag, hframe⟩ := mgInner_col hi j h16
    obtain ⟨ihL, ihcol, ihflag, ihframe⟩ := mgFold_col hi js (mgInner pos i j s) hL
    have hpair : (colOf (mgInner pos i j s).1 i, (mgInner pos i j s).2) =
        mgColInner j (colOf s.1 i, s.2) := by rw [hcol, hflag]
    rw [List.foldl_cons, List.foldl_cons]
    refine ⟨ihL, ?_, ?_, ?_⟩
    · rw [ihcol, hpair]
    · rw [ihflag, hpair]
    · intro i' hi' hne
      rw [ihframe i' hi' hne, hframe i' hi' hne]

theorem mergePass_cols {pos : Int} {g : List Nat} (h16 : g.length = 16)
    (sc bs : Nat) :
    (mergePass pos (g, sc, bs, false)).1.length = 16 ∧
    colOf (mergePass pos (g, sc, bs, false)).1 0 =
      (mgCol pos (colOf g 0, sc, bs, false)).1 ∧
    colOf (mergePass pos (g, sc, bs, false)).1 1 =
      (mgCol pos (colOf g 1, (mgCol pos (colOf g 0, sc, bs, false)).2)).1 ∧
    colOf (mergePass pos (g, sc, bs, false)).1 2 =
      (mgCol pos (colOf g 2, (mgCol pos (colOf g 1,
        (mgCol pos (colOf g 0, sc, bs, false)).2)).2)).1 ∧
    colOf (mergePass pos (g, sc, bs, false)).1 3 =
      (mgCol pos (colOf g 3, (mgCol pos (colOf g 2, (mgCol pos (colOf g 1,
        (mgCol pos (colOf g 0, sc, bs, false)).2)).2)).2)).1 ∧
    (mergePass pos (g, sc, bs, false)).2 =
      (mgCol pos (colOf g 3, (mgCol pos (colOf g 2, (mgCol pos (colOf g 1,
        (mgCol pos (colOf g 0, sc, bs, false)).2)).2)).2)).2 := by
  unfold mergePass
  rw [show List.range 4 = [0, 1, 2, 3] from rfl]
  simp only [List.foldl_cons, List.foldl_nil]
  obtain ⟨L0, C0, X0, Fr0⟩ := mgFold_col (show (0 : Nat) < 4 from by omega)
    (intRange (0 - pos) (3 - pos)) (g, sc, bs, false) h16
  obtain ⟨L1, C1, X1, Fr1⟩ := mgFold_col (show (1 : Nat) < 4 from by omega)
    (intRange (0 - pos) (3 - pos))
    ((intRange (0 - pos) (3 - pos)).foldl (fun t j => mgInner pos 0 j t)
      (g, sc, bs, false)) L0
  obtain ⟨L2, C2, X2, Fr2⟩ := mgFold_col (show (2 : Nat) < 4 from by omega)
    (intRange (0 - pos) (3 - pos))
    ((intRange (0 - pos) (3 - pos)).foldl (fun t j => mgInner pos 1 j t)
      ((intRange (0 - pos) (3 - pos)).foldl (fun t j => mgInner pos 0 j t)
        (g, sc, bs, false))) L1
  obtain ⟨L3, C3, X3, Fr3⟩ := mgFold_col (show (3 : Nat) < 4 from by omega)
    (intRange (0 - pos) (3 - pos))
    ((intRange (0 - pos) (3 - pos)).foldl (fun t j => mgInner pos 2 j t)
      ((intRange (0 - pos) (3 - pos)).foldl (fun t j => mgInner pos 1 j t)
        ((intRange (0 - pos) (3 - pos)).foldl (fun t j => mgInner pos 0 j t)
          (g, sc, bs, false)))) L2
  refine ⟨L3, ?_, ?_, ?_, ?_, ?_⟩
  · rw [Fr3 0 (by omega) (by omega), Fr2 0 (by omega) (by omega),
      Fr1 0 (by omega) (by omega), C0]
    rfl
  · rw [Fr3 1 (by omega) (by omega), Fr2 1 (by omega) (by omega), C1,
      Fr0 1 (by omega) (by omega), X0]
    rfl
  · rw [Fr3 2 (by omega) (by omega), C2, Fr1 2 (by omega) (by omega),
      Fr0 2 (by omega) (by omega), X1, Fr0 1 (by omega) (by omega), X0]
    rfl
  · rw [C3, Fr2 3 (by omega) (by omega), Fr1 3 (by omega) (by omega),
      Fr0 3 (by omega) (by omega), X2, Fr1 2 (by omega) (by omega),
      Fr0 2 (by omega) (by omega), X1, Fr0 1 (by omega) (by omega), X0]
    rfl
  · rw [X3, Fr2 3 (by omega) (by omega), Fr1 3 (by omega) (by omega),
      Fr0 3 (by omega) (by omega), X2, Fr1 2 (by omega) (by omega),
      Fr0 2 (by omega) (by omega), X1, Fr0 1 (by omega) (by omega), X0]
    rfl

/-! ### Closed characterisation of the column passes -/

theorem dzCol0_eq (a b c d : Nat) (f : Bool) :
    (dzCol 0 ([a, b, c, d], f)).1 = slideSpec [a, b, c, d] := by
  unfold dzCol
  rw [show intRange (0 - 0) (4 - 0) = [0, 1, 2, 3] from by decide]
  simp only [List.foldl_cons, List.foldl_nil]
  by_cases ha : a = 0 <;> by_cases hb : b = 0 <;> by_cases hc : c = 0 <;>
    by_cases hd : d = 0 <;>
  simp [dzColInner, cget, slideSpec, ha, hb, hc, hd,
    show intRange 1 4 = [1, 2, 3] from by decide,
    show intRange 2 4 = [2, 3] from by decide,
    show intRange 3 4 = [3] from by decide,
    show intRange 4 4 = [] from by decide,
    show ((0 : Int)).natAbs = 0 from rfl,
    show ((1 : Int)).natAbs = 1 from rfl,
    show ((2 : Int)).natAbs = 2 from rfl,
    show ((3 : Int)).natAbs = 3 from rfl]

theorem dzCol3_eq (a b c d : Nat) (f : Bool) :
    (dzCol 3 ([a, b, c, d], f)).1 = (slideSpec [d, c, b, a]).reverse := by
  unfold dzCol
  rw [show intRange (0 - 3) (4 - 3) = [-3, -2, -1, 0] from by decide]
  simp only [List.foldl_cons, List.foldl_nil]
  by_cases ha : a = 0 <;> by_cases hb : b = 0 <;> by_cases hc : c = 0 <;>
    by_cases hd : d = 0 <;>
  simp [dzColInner, cget, slideSpec, ha, hb, hc, hd,
    show intRange (-2) 1 = [-2, -1, 0] from by decide,
    show intRange (-1) 1 = [-1, 0] from by decide,
    show intRange 0 1 = [0] from by decide,
    show intRange 1 1 = [] from by decide,
    show ((0 : Int)).natAbs = 0 from rfl,
    show ((-1 : Int)).natAbs = 1 from rfl,
    show ((-2 : Int)).natAbs = 2 from rfl,
    show ((-3 : Int)).natAbs = 3 from rfl]

theorem mgCol0_eq (a b c d sc bs : Nat) (f : Bool) :
    mgCol 0 ([a, b, c, d], sc, bs, f) =
      ((mergeSpec [a, b, c, d]).1,
       (scbsFold (sc, bs) (mergeSpec [a, b, c, d]).2).1,
       (scbsFold (sc, bs) (mergeSpec [a, b, c, d]).2).2,
       f || decide ((mergeSpec [a, b, c, d]).2 ≠ [])) := by
  unfold mgCol
  rw [show intRange (0 - 0) (3 - 0) = [0, 1, 2] from by decide]
  simp only [List.foldl_cons, List.foldl_nil]
  by_cases h1 : a ≠ 0 ∧ a = b
  · obtain ⟨h1a, rfl⟩ := h1
    by_cases h2 : c ≠ 0 ∧ c = d
    · obtain ⟨h2a, rfl⟩ := h2
      simp [mgColInner, cget, mergeSpec, scbsFold, h1a, h2a,
        show ((0 : Int)).natAbs = 0 from rfl,
        show ((1 : Int)).natAbs = 1 from rfl,
        show ((2 : Int)).natAbs = 2 from rfl,
        show ((3 : Int)).natAbs = 3 from rfl]
    · simp [mgColInner, cget, mergeSpec, scbsFold, h1a, h2,
        show ((0 : Int)).natAbs = 0 from rfl,
        show ((1 : Int)).natAbs = 1 from rfl,
        show ((2 : Int)).natAbs = 2 from rfl,
        show ((3 : Int)).natAbs = 3 from rfl]
  · by_cases h2 : b ≠ 0 ∧ b = c
    · obtain ⟨h2b, rfl⟩ := h2
      simp [mgColInner, cget, mergeSpec, scbsFold, h1, h2b,
        show ((0 : Int)).natAbs = 0 from rfl,
        show ((1 : Int)).natAbs = 1 from rfl,
        show ((2 : Int)).natAbs = 2 from rfl,
        show ((3 : Int)).natAbs = 3 from rfl]
    · by_cases h3 : c ≠ 0 ∧ c = d
      · obtain ⟨h3c, rfl⟩ := h3
        simp [mgColInner, cget, mergeSpec, scbsFold, h1, h2, h3c,
          show ((0 : Int)).natAbs = 0 from rfl,
          show ((1 : Int)).natAbs = 1 from rfl,
          show ((2 : Int)).natAbs = 2 from rfl,
          show ((3 : Int)).natAbs = 3 from rfl]
      · simp [mgColInner, cget, mergeSpec, scbsFold, h1, h2, h3,
          show ((0 : Int)).natAbs = 0 from rfl,
          show ((1 : Int)).natAbs = 1 from rfl,
          show ((2 : Int)).natAbs = 2 from rfl,
          show ((3 : Int)).natAbs = 3 from rfl]

theorem mgCol3_eq (a b c d sc bs : Nat) (f : Bool) :
    mgCol 3 ([a, b, c, d], sc, bs, f) =
      (((mergeSpec [d, c, b, a]).1).reverse,
       (scbsFold (sc, bs) (mergeSpec [d, c, b, a]).2).1,
       (scbsFold (sc, bs) (mergeSpec [d, c, b, a]).2).2,
       f || decide ((mergeSpec [d, c, b, a]).2 ≠ [])) := by
  unfold mgCol
  rw [show intRange (0 - 3) (3 - 3) = [-3, -2, -1] from by decide]
  simp only [List.foldl_cons, List.foldl_nil]
  by_cases h1 : d ≠ 0 ∧ d = c
  · obtain ⟨h1d, rfl⟩ := h1
    by_cases h2 : b ≠ 0 ∧ b = a
    · obtain ⟨h2b, rfl⟩ := h2
      simp [mgColInner, cget, mergeSpec, scbsFold, h1d, h2b,
        show ((0 : Int)).natAbs = 0 from rfl,
        show ((-1 : Int)).natAbs = 1 from rfl,
        show ((-2 : Int)).natAbs = 2 from rfl,
        show ((-3 : Int)).natAbs = 3 from rfl]
    · simp [mgColInner, cget, mergeSpec, scbsFold, h1d, h2,
        show ((0 : Int)).natAbs = 0 from rfl,
        show ((-1 : Int)).natAbs = 1 from rfl,
        show ((-2 : Int)).natAbs = 2 from rfl,
        show ((-3 : Int)).natAbs = 3 from rfl]
  · by_cases h2 : c ≠ 0 ∧ c = b
    · obtain ⟨h2c, rfl⟩ := h2
      simp [mgColInner, cget, mergeSpec, scbsFold, h1, h2c,
        show ((0 : Int)).natAbs = 0 from rfl,
        show ((-1 : Int)).natAbs = 1 from rfl,
        show ((-2 : Int)).natAbs = 2 from rfl,
        show ((-3 : Int)).natAbs = 3 from rfl]
    · by_cases h3 : b ≠ 0 ∧ b = a
      · obtain ⟨h3b, rfl⟩ := h3
        simp [mgColInner, cget, mergeSpec, scbsFold, h1, h2, h3b,
          show ((0 : Int)).natAbs = 0 from rfl,
          show ((-1 : Int)).natAbs = 1 from rfl,
          show ((-2 : Int)).natAbs = 2 from rfl,
          show ((-3 : Int)).natAbs = 3 from rfl]
      · simp [mgColInner, cget, mergeSpec, scbsFold, h1, h2, h3,
          show ((0 : Int)).natAbs = 0 from rfl,
          show ((-1 : Int)).natAbs = 1 from rfl,
          show ((-2 : Int)).natAbs = 2 from rfl,
          show ((-3 : Int)).natAbs = 3 from rfl]

/-! ### Spec-side lemmas -/

theorem slideSpec_length (l : List Nat) : (slideSpec l).length = l.length := by
  unfold slideSpec
  rw [List.length_append, List.length_replicate]
  have h : (List.filter (fun x => decide (x ≠ 0)) l).length ≤ l.length :=
    List.length_filter_le _ l
  omega

theorem mergeSpec_length : ∀ l : List Nat, (mergeSpec l).1.length = l.length
  | [] => rfl
  | [_] => rfl
  | a :: b :: rest => by
    unfold mergeSpec
    by_cases hc : a ≠ 0 ∧ a = b
    · rw [if_pos hc]
      have := mergeSpec_length rest
      simp only [List.length_cons]
      omega
    · rw [if_neg hc]
      have := mergeSpec_length (b :: rest)
      simp only [List.length_cons] at this ⊢
      omega

theorem filter_nz_sum : ∀ l : List Nat,
    (l.filter (fun x => !decide (x = 0))).sum = l.sum
  | [] => rfl
  | x :: xs => by
    by_cases hx : x = 0
    · subst hx
      simp [List.filter_cons, filter_nz_sum xs]
    · simp [List.filter_cons, hx, filter_nz_sum xs]

theorem slideSpec_sum (l : List Nat) : (slideSpec l).sum = l.sum := by
  unfold slideSpec
  rw [List.sum_append]
  simp [filter_nz_sum]

theorem mergeSpec_created_le : ∀ l : List Nat, (mergeSpec l).2.sum ≤ l.sum
  | [] => by simp [mergeSpec]
  | [x] => by simp [mergeSpec]
  | a :: b :: rest => by
    unfold mergeSpec
    by_cases hc : a ≠ 0 ∧ a = b
    · rw [if_pos hc]
      have := mergeSpec_created_le rest
      have hmod : a * 2 % W32 ≤ a * 2 := Nat.mod_le _ _
      simp only [List.sum_cons]
      omega
    · rw [if_neg hc]
      have := mergeSpec_created_le (b :: rest)
      simp only [List.sum_cons] at this ⊢
      omega

theorem mergeSpec_sum_exact : ∀ l : List Nat, l.sum ≤ 2 ^ 31 - 1 →
    (mergeSpec l).1.sum = l.sum
  | [] => fun _ => rfl
  | [_] => fun _ => rfl
  | a :: b :: rest => by
    intro h
    unfold mergeSpec
    by_cases hc : a ≠ 0 ∧ a = b
    · rw [if_pos hc]
      obtain ⟨_, rfl⟩ := hc
      simp only [List.sum_cons] at h ⊢
      have hrest := mergeSpec_sum_exact rest (by omega)
      have hmod : a * 2 % W32 = a * 2 := by
        apply Nat.mod_eq_of_lt
        unfold W32
        omega
      omega
    · rw [if_neg hc]
      simp only [List.sum_cons] at h ⊢
      have := mergeSpec_sum_exact (b :: rest) (by simp; omega)
      simp only [List.sum_cons] at this
      omega

theorem dzCol_spec0 {c : List Nat} (h4 : c.length = 4) (f : Bool) :
    (dzCol 0 (c, f)).1 = slideSpec c := by
  obtain ⟨a, b, x, d, rfl⟩ := col_explicit h4
  exact dzCol0_eq a b x d f

theorem dzCol_spec3 {c : List Nat} (h4 : c.length = 4) (f : Bool) :
    (dzCol 3 (c, f)).1 = (slideSpec c.reverse).reverse := by
  obtain ⟨a, b, x, d, rfl⟩ := col_explicit h4
  rw [show [a, b, x, d].reverse = [d, x, b, a] from by simp]
  exact dzCol3_eq a b x d f

theorem mgCol_spec0 {c : List Nat} (h4 : c.length = 4) (p : Nat × Nat × Bool) :
    mgCol 0 (c, p) =
      ((mergeSpec c).1,
       (scbsFold (p.1, p.2.1) (mergeSpec c).2).1,
       (scbsFold (p.1, p.2.1) (mergeSpec c).2).2,
       p.2.2 || decide ((mergeSpec c).2 ≠ [])) := by
  obtain ⟨a, b, x, d, rfl⟩ := col_explicit h4
  obtain ⟨sc, bs, f⟩ := p
  exact mgCol0_eq a b x d sc bs f

theorem mgCol_spec3 {c : List Nat} (h4 : c.length = 4) (p : Nat × Nat × Bool) :
    mgCol 3 (c, p) =
      (((mergeSpec c.reverse).1).reverse,
       (scbsFold (p.1, p.2.1) (mergeSpec c.reverse).2).1,
       (scbsFold (p.1, p.2.1) (mergeSpec c.reverse).2).2,
       p.2.2 || decide ((mergeSpec c.reverse).2 ≠ [])) := by
  obtain ⟨a, b, x, d, rfl⟩ := col_explicit h4
  obtain ⟨sc, bs, f⟩ := p
  rw [show [a, b, x, d].reverse = [d, x, b, a] from by simp]
  exact mgCol3_eq a b x d sc bs f

theorem grid_from_cols {g : List Nat} (h16 : g.length = 16) :
    g = ofCols (colOf g 0) (colOf g 1) (colOf g 2) (colOf g 3) := by
  obtain ⟨a0, a1, a2, a3, a4, a5, a6, a7, a8, a9, a10, a11, a12, a13, a14, a15, rfl⟩ :=
    grid_explicit h16
  simp [ofCols, colOf, cget, gget]

theorem colPipeline {pos : Int} (hpos : pos = 0 ∨ pos = 3)
    {c cD cM cF : List Nat} (h4 : c.length = 4)
    (hD : ∃ f : Bool, cD = (dzCol pos (c, f)).1)
    (hM : ∃ p : Nat × Nat × Bool, cM = (mgCol pos (cD, p)).1)
    (hF : ∃ f : Bool, cF = (dzCol pos (cM, f)).1) :
    cF = specColApply pos c := by
  obtain ⟨f1, rfl⟩ := hD
  obtain ⟨p, rfl⟩ := hM
  obtain ⟨f3, rfl⟩ := hF
  rcases hpos with rfl | rfl
  · rw [dzCol_spec0 h4 f1, mgCol_spec0 (by rw [slideSpec_length]; exact h4) p]
    show (dzCol 0 ((mergeSpec (slideSpec c)).1, f3)).1 = specColApply 0 c
    rw [dzCol_spec0 (by rw [mergeSpec_length, slideSpec_length]; exact h4) f3]
    simp [specColApply, specLineF]
  · rw [dzCol_spec3 h4 f1, mgCol_spec3
      (by rw [List.length_reverse, slideSpec_length, List.length_reverse]; exact h4) p]
    show (dzCol 3 ((mergeSpec ((slideSpec c.reverse).reverse).reverse).1.reverse,
      f3)).1 = specColApply 3 c
    rw [List.reverse_reverse]
    rw [dzCol_spec3 (by rw [List.length_reverse, mergeSpec_length, slideSpec_length,
      List.length_reverse]; exact h4) f3]
    rw [List.reverse_reverse]
    simp [specColApply, specLineF]

set_option maxHeartbeats 1000000 in
theorem merge_refines {s : Game} {dir : Nat} {pos : Int}
    (hd : dir = 0 ∨ dir = 1) (hpos : pos = 0 ∨ pos = 3)
    (h16 : s.datas.length = 16) :
    (s.merge dir pos).1.datas = specMoveDatas dir pos s.datas := by
  have hG : (normG s dir).length = 16 := normG_length h16
  have h1L : (delete_zero pos (normG s dir)).1.length = 16 := by
    rw [delete_zero_length]; exact hG
  obtain ⟨M1L, hm0, hm1, hm2, hm3, hmX⟩ := mergePass_cols h1L s.score s.best_score
  have h3spec : ∀ i, i < 4 →
      colOf (delete_zero pos (mergePass pos ((delete_zero pos (normG s dir)).1,
        s.score, s.best_score, false)).1).1 i =
      specColApply pos (colOf (normG s dir) i) := by
    intro i hi
    refine colPipeline hpos (colOf_length _ _) (delete_zero_cols hG i hi) ?_
      (delete_zero_cols M1L i hi)
    interval_cases i
    · exact ⟨(s.score, s.best_score, false), hm0⟩
    · exact ⟨_, hm1⟩
    · exact ⟨_, hm2⟩
    · exact ⟨_, hm3⟩
  have h3L : (delete_zero pos (mergePass pos ((delete_zero pos (normG s dir)).1,
      s.score, s.best_score, false)).1).1.length = 16 := by
    rw [delete_zero_length]; exact M1L
  have hgrid := grid_from_cols h3L
  rw [h3spec 0 (by omega), h3spec 1 (by omega), h3spec 2 (by omega),
    h3spec 3 (by omega)] at hgrid
  rcases hd with rfl | rfl
  · show (delete_zero pos (mergePass pos ((delete_zero pos (normG s 0)).1,
      s.score, s.best_score, false)).1).1 = specMoveDatas 0 pos s.datas
    rw [hgrid]
    rfl
  · show transpose (delete_zero pos (mergePass pos ((delete_zero pos
      (normG s 1)).1, s.score, s.best_score, false)).1).1 =
      specMoveDatas 1 pos s.datas
    rw [hgrid]
    rfl

/-! ### Score accounting of the merge pass -/

theorem scbsFold_score : ∀ (cs : List Nat) (p : Nat × Nat),
    p.1 + cs.sum ≤ M32 → (scbsFold p cs).1 = p.1 + cs.sum
  | [], p, _ => by simp [scbsFold]
  | v :: cs, p, h => by
    simp only [List.sum_cons] at h
    have hs : satAdd p.1 v = p.1 + v := by unfold satAdd; omega
    have ih := scbsFold_score cs (satAdd p.1 v,
      if p.2 < satAdd p.1 v then satAdd p.1 v else p.2)
      (by dsimp only; rw [hs]; omega)
    unfold scbsFold at ih ⊢
    rw [List.foldl_cons]
    dsimp only at ih ⊢
    rw [ih, hs]
    simp only [List.sum_cons]
    omega

theorem S16_cols {g : List Nat} (h16 : g.length = 16) :
    S16 g = (colOf g 0).sum + (colOf g 1).sum + (colOf g 2).sum +
      (colOf g 3).sum := by
  unfold S16
  simp [Finset.sum_range_succ, colOf]
  omega

theorem mgChain0_score {c0 c1 c2 c3 : List Nat} (h0 : c0.length = 4)
    (h1 : c1.length = 4) (h2 : c2.length = 4) (h3 : c3.length = 4)
    (sc bs : Nat)
    (hsat : sc + ((mergeSpec c0).2.sum + (mergeSpec c1).2.sum +
      (mergeSpec c2).2.sum + (mergeSpec c3).2.sum) ≤ M32) :
    (mgCol 0 (c3, (mgCol 0 (c2, (mgCol 0 (c1,
      (mgCol 0 (c0, sc, bs, false)).2)).2)).2)).2.1 =
      sc + ((mergeSpec c0).2.sum + (mergeSpec c1).2.sum +
        (mergeSpec c2).2.sum + (mergeSpec c3).2.sum) := by
  rw [mgCol_spec0 h0, mgCol_spec0 h1, mgCol_spec0 h2, mgCol_spec0 h3]
  dsimp only
  simp only [Prod.mk.eta]
  have e0 := scbsFold_score (mergeSpec c0).2 (sc, bs) (by dsimp only; omega)
  have e1 := scbsFold_score (mergeSpec c1).2
    (scbsFold (sc, bs) (mergeSpec c0).2) (by rw [e0]; dsimp only; omega)
  have e2 := scbsFold_score (mergeSpec c2).2
    (scbsFold (scbsFold (sc, bs) (mergeSpec c0).2) (mergeSpec c1).2)
    (by rw [e1, e0]; dsimp only; omega)
  have e3 := scbsFold_score (mergeSpec c3).2
    (scbsFold (scbsFold (scbsFold (sc, bs) (mergeSpec c0).2)
      (mergeSpec c1).2) (mergeSpec c2).2)
    (by rw [e2, e1, e0]; dsimp only; omega)
  rw [e3, e2, e1, e0]
  dsimp only
  omega

theorem mgChain3_score {c0 c1 c2 c3 : List Nat} (h0 : c0.length = 4)
    (h1 : c1.length = 4) (h2 : c2.length = 4) (h3 : c3.length = 4)
    (sc bs : Nat)
    (hsat : sc + ((mergeSpec c0.reverse).2.sum + (mergeSpec c1.reverse).2.sum +
      (mergeSpec c2.reverse).2.sum + (mergeSpec c3.reverse).2.sum) ≤ M32) :
    (mgCol 3 (c3, (mgCol 3 (c2, (mgCol 3 (c1,
      (mgCol 3 (c0, sc, bs, false)).2)).2)).2)).2.1 =
      sc + ((mergeSpec c0.reverse).2.sum + (mergeSpec c1.reverse).2.sum +
        (mergeSpec c2.reverse).2.sum + (mergeSpec c3.reverse).2.sum) := by
  rw [mgCol_spec3 h0, mgCol_spec3 h1, mgCol_spec3 h2, mgCol_spec3 h3]
  dsimp only
  simp only [Prod.mk.eta]
  have e0 := scbsFold_score (mergeSpec c0.reverse).2 (sc, bs)
    (by dsimp only; omega)
  have e1 := scbsFold_score (mergeSpec c1.reverse).2
    (scbsFold (sc, bs) (mergeSpec c0.reverse).2) (by rw [e0]; dsimp only; omega)
  have e2 := scbsFold_score (mergeSpec c2.reverse).2
    (scbsFold (scbsFold (sc, bs) (mergeSpec c0.reverse).2)
      (mergeSpec c1.reverse).2)
    (by rw [e1, e0]; dsimp only; omega)
  have e3 := scbsFold_score (mergeSpec c3.reverse).2
    (scbsFold (scbsFold (scbsFold (sc, bs) (mergeSpec c0.reverse).2)
      (mergeSpec c1.reverse).2) (mergeSpec c2.reverse).2)
    (by rw [e2, e1, e0]; dsimp only; omega)
  rw [e3, e2, e1, e0]
  dsimp only
  omega

set_option maxHeartbeats 1000000 in
theorem merge_score_exact {s : Game} {dir : Nat} {pos : Int}
    (hd : dir = 0 ∨ dir = 1) (hpos : pos = 0 ∨ pos = 3)
    (h16 : s.datas.length = 16)
    (hsat : s.score + S16 s.datas ≤ M32) :
    (s.merge dir pos).1.score = s.score + createdTotal dir pos s.datas := by
  have hG : (normG s dir).length = 16 := normG_length h16
  have h1L : (delete_zero pos (normG s dir)).1.length = 16 := by
    rw [delete_zero_length]; exact hG
  obtain ⟨M1L, hm0, hm1, hm2, hm3, hmX⟩ := mergePass_cols h1L s.score s.best_score
  obtain ⟨f0, e0⟩ := delete_zero_cols hG 0 (by omega)
  obtain ⟨f1, e1⟩ := delete_zero_cols hG 1 (by omega)
  obtain ⟨f2, e2⟩ := delete_zero_cols hG 2 (by omega)
  obtain ⟨f3, e3⟩ := delete_zero_cols hG 3 (by omega)
  have hS : S16 (normG s dir) = S16 s.datas := by
    unfold normG
    rcases hd with rfl | rfl
    · rw [if_neg (by omega : ¬((0 : Nat) = 1))]
    · rw [if_pos rfl]
      exact S16_transpose h16
  have hCS := S16_cols hG
  show (mergePass pos ((delete_zero pos (normG s dir)).1, s.score,
    s.best_score, false)).2.1 = s.score + createdTotal dir pos s.datas
  rw [hmX, e0, e1, e2, e3]
  rcases hpos with rfl | rfl
  · rw [dzCol_spec0 (colOf_length _ _) f0, dzCol_spec0 (colOf_length _ _) f1,
      dzCol_spec0 (colOf_length _ _) f2, dzCol_spec0 (colOf_length _ _) f3]
    have b0 : (mergeSpec (slideSpec (colOf (normG s dir) 0))).2.sum ≤
        (colOf (normG s dir) 0).sum :=
      le_trans (mergeSpec_created_le _) (le_of_eq (slideSpec_sum _))
    have b1 : (mergeSpec (slideSpec (colOf (normG s dir) 1))).2.sum ≤
        (colOf (normG s dir) 1).sum :=
      le_trans (mergeSpec_created_le _) (le_of_eq (slideSpec_sum _))
    have b2 : (mergeSpec (slideSpec (colOf (normG s dir) 2))).2.sum ≤
        (colOf (normG s dir) 2).sum :=
      le_trans (mergeSpec_created_le _) (le_of_eq (slideSpec_sum _))
    have b3 : (mergeSpec (slideSpec (colOf (normG s dir) 3))).2.sum ≤
        (colOf (normG s dir) 3).sum :=
      le_trans (mergeSpec_created_le _) (le_of_eq (slideSpec_sum _))
    rw [mgChain0_score (by rw [slideSpec_length]; exact colOf_length _ _)
      (by rw [slideSpec_length]; exact colOf_length _ _)
      (by rw [slideSpec_length]; exact colOf_length _ _)
      (by rw [slideSpec_length]; exact colOf_length _ _)
      s.score s.best_score (by omega)]
    have hct : createdTotal dir 0 s.datas =
        (mergeSpec (slideSpec (colOf (normG s dir) 0))).2.sum +
        (mergeSpec (slideSpec (colOf (normG s dir) 1))).2.sum +
        (mergeSpec (slideSpec (colOf (normG s dir) 2))).2.sum +
        (mergeSpec (slideSpec (colOf (normG s dir) 3))).2.sum := rfl
    rw [hct]
  · rw [dzCol_spec3 (colOf_length _ _) f0, dzCol_spec3 (colOf_length _ _) f1,
      dzCol_spec3 (colOf_length _ _) f2, dzCol_spec3 (colOf_length _ _) f3]
    have b0 : (mergeSpec (slideSpec (colOf (normG s dir) 0).reverse)).2.sum ≤
        (colOf (normG s dir) 0).sum :=
      le_trans (mergeSpec_created_le _)
        (le_of_eq (by rw [slideSpec_sum, List.sum_reverse]))
    have b1 : (mergeSpec (slideSpec (colOf (normG s dir) 1).reverse)).2.sum ≤
        (colOf (normG s dir) 1).sum :=
      le_trans (mergeSpec_created_le _)
        (le_of_eq (by rw [slideSpec_sum, List.sum_reverse]))
    have b2 : (mergeSpec (slideSpec (colOf (normG s dir) 2).reverse)).2.sum ≤
        (colOf (normG s dir) 2).sum :=
      le_trans (mergeSpec_created_le _)
        (le_of_eq (by rw [slideSpec_sum, List.sum_reverse]))
    have b3 : (mergeSpec (slideSpec (colOf (normG s dir) 3).reverse)).2.sum ≤
        (colOf (normG s dir) 3).sum :=
      le_trans (mergeSpec_created_le _)
        (le_of_eq (by rw [slideSpec_sum, List.sum_reverse]))
    rw [mgChain3_score
      (by rw [List.length_reverse, slideSpec_length, List.length_reverse]
          exact colOf_length _ _)
      (by rw [List.length_reverse, slideSpec_length, List.length_reverse]
          exact colOf_length _ _)
      (by rw [List.length_reverse, slideSpec_length, List.length_reverse]
          exact colOf_length _ _)
      (by rw [List.length_reverse, slideSpec_length, List.length_reverse]
          exact colOf_length _ _)
      s.score s.best_score
      (by simp only [List.reverse_reverse]; omega)]
    simp only [List.reverse_reverse]
    have hct : createdTotal dir 3 s.datas =
        (mergeSpec (slideSpec (colOf (normG s dir) 0).reverse)).2.sum +
        (mergeSpec (slideSpec (colOf (normG s dir) 1).reverse)).2.sum +
        (mergeSpec (slideSpec (colOf (normG s dir) 2).reverse)).2.sum +
        (mergeSpec (slideSpec (colOf (normG s dir) 3).reverse)).2.sum := rfl
    rw [hct]

set_option maxRecDepth 4000 in
/-- C4: each cell takes part in at most one merge per move.  The move
operation refines `specMoveDatas`, whose per-line transform `mergeSpec`
scans the line once from the target end and, on finding an equal
non-zero adjacent pair, emits the doubled tile and resumes *after both
cells of the pair* — so by construction no output tile combines more
than two input tiles and a tile created by a merge is never merged again
in the same move.  Concretely, the game whose first row is `[2,2,2,0]`
moved Left ends with first row `[4,2,0,0]` and score delta 4 (the
leftmost pair merges once; the third 2 slides but does not merge). -/
theorem C4_one_merge_per_cell :
    (∀ (s : Game) (d : Dir), s.datas.length = 16 →
      (s.merge (dirDP d).1 (dirDP d).2).1.datas =
        specMoveDatas (dirDP d).1 (dirDP d).2 s.datas) ∧
    ((⟨0, 0, [2,2,2,0, 0,0,0,0, 0,0,0,0, 0,0,0,0], true, false, 0, []⟩ :
        Game).merge (dirDP Dir.left).1 (dirDP Dir.left).2).1.datas =
      [4,2,0,0, 0,0,0,0, 0,0,0,0, 0,0,0,0] ∧
    ((⟨0, 0, [2,2,2,0, 0,0,0,0, 0,0,0,0, 0,0,0,0], true, false, 0, []⟩ :
        Game).merge (dirDP Dir.left).1 (dirDP Dir.left).2).1.score = 0 + 4 := by
  refine ⟨?_, by decide, by decide⟩
  intro s d h16
  cases d
  · exact merge_refines (Or.inl rfl) (Or.inl rfl) h16
  · exact merge_refines (Or.inl rfl) (Or.inr rfl) h16
  · exact merge_refines (Or.inr rfl) (Or.inl rfl) h16
  · exact merge_refines (Or.inr rfl) (Or.inr rfl) h16

/-- Witness for C4: the refinement applied at a concrete state (the
scenario grid) and direction. -/
theorem C4_witness :
    ((⟨0, 0, [2,2,2,0, 0,0,0,0, 0,0,0,0, 0,0,0,0], true, false, 0, []⟩ :
        Game).merge (dirDP Dir.left).1 (dirDP Dir.left).2).1.datas =
      specMoveDatas (dirDP Dir.left).1 (dirDP Dir.left).2
        (⟨0, 0, [2,2,2,0, 0,0,0,0, 0,0,0,0, 0,0,0,0], true, false, 0, []⟩ :
          Game).datas :=
  C4_one_merge_per_cell.1
    (⟨0, 0, [2,2,2,0, 0,0,0,0, 0,0,0,0, 0,0,0,0], true, false, 0, []⟩ : Game)
    Dir.left (by decide)

set_option maxRecDepth 4000 in
/-- C5 counterexample: a move that changes the grid need not preserve
the claimed sum relation.  Doubling is `<<= 1` on `u32`, which wraps:
on a grid holding two tiles of `2^31` in one column, moving up merges
them into a tile of value `2^31 * 2 mod 2^32 = 0`.  The move reports
`moved = true`, the score delta is `saturating_add 0 0 = 0`, and the sum
of all tile values drops from `2^32` to `0` — neither equal to the old
sum nor exceeding it by the score delta. -/
theorem C5_counterexample :
    ∃ s : Game,
      s.datas = [2147483648, 0, 0, 0, 2147483648, 0, 0, 0,
        0, 0, 0, 0, 0, 0, 0, 0] ∧
      (s.merge 0 0).2 = true ∧
      S16 s.datas = 2 ^ 32 ∧
      S16 (s.merge 0 0).1.datas = 0 ∧
      (s.merge 0 0).1.score = s.score ∧
      ¬(S16 (s.merge 0 0).1.datas = S16 s.datas ∨
        S16 (s.merge 0 0).1.datas =
          S16 s.datas + ((s.merge 0 0).1.score - s.score)) :=
  ⟨⟨0, 0, [2147483648, 0, 0, 0, 2147483648, 0, 0, 0,
    0, 0, 0, 0, 0, 0, 0, 0], true, false, 0, []⟩, by decide⟩

/-- C5 (amended): on a 16-cell grid whose tile total is at most
`2^31 - 1` (so no doubled value wraps) and whose score headroom rules
out saturation, every move conserves the sum of all tile values (each
merge replaces two tiles `a, a` by one tile `2a`), and the score delta
of the move is exactly the sum of the newly created merged-tile values
(`createdTotal`).  In particular the original disjunction holds with the
"stays equal" branch, and `score_delta = Σ created`. -/
theorem C5_sum_conservation_and_score {s : Game} {d : Dir}
    (h16 : s.datas.length = 16)
    (hB : S16 s.datas ≤ 2 ^ 31 - 1)
    (hsc : s.score + S16 s.datas ≤ M32)
    (hmv : (s.merge (dirDP d).1 (dirDP d).2).2 = true) :
    S16 (s.merge (dirDP d).1 (dirDP d).2).1.datas = S16 s.datas ∧
    (s.merge (dirDP d).1 (dirDP d).2).1.score =
      s.score + createdTotal (dirDP d).1 (dirDP d).2 s.datas := by
  cases d
  · exact ⟨merge_sum (Or.inl rfl) (Or.inl rfl) h16 hB,
      merge_score_exact (Or.inl rfl) (Or.inl rfl) h16 hsc⟩
  · exact ⟨merge_sum (Or.inl rfl) (Or.inr rfl) h16 hB,
      merge_score_exact (Or.inl rfl) (Or.inr rfl) h16 hsc⟩
  · exact ⟨merge_sum (Or.inr rfl) (Or.inl rfl) h16 hB,
      merge_score_exact (Or.inr rfl) (Or.inl rfl) h16 hsc⟩
  · exact ⟨merge_sum (Or.inr rfl) (Or.inr rfl) h16 hB,
      merge_score_exact (Or.inr rfl) (Or.inr rfl) h16 hsc⟩

set_option maxRecDepth 4000 in
/-- Witness for the amended C5 at a concrete moving state: two tiles of
2 in the first column merge upward into a 4; the tile total 4 is
conserved and the score delta is the created value 4. -/
theorem C5_witness :
    S16 (((⟨0, 0, [2,0,0,0, 2,0,0,0, 0,0,0,0, 0,0,0,0], true, false, 0, []⟩ :
        Game).merge (dirDP Dir.up).1 (dirDP Dir.up).2).1.datas) =
      S16 (⟨0, 0, [2,0,0,0, 2,0,0,0, 0,0,0,0, 0,0,0,0], true, false, 0, []⟩ :
        Game).datas ∧
    ((⟨0, 0, [2,0,0,0, 2,0,0,0, 0,0,0,0, 0,0,0,0], true, false, 0, []⟩ :
        Game).merge (dirDP Dir.up).1 (dirDP Dir.up).2).1.score =
      (⟨0, 0, [2,0,0,0, 2,0,0,0, 0,0,0,0, 0,0,0,0], true, false, 0, []⟩ :
          Game).score +
        createdTotal (dirDP Dir.up).1 (dirDP Dir.up).2
          (⟨0, 0, [2,0,0,0, 2,0,0,0, 0,0,0,0, 0,0,0,0], true, false, 0, []⟩ :
            Game).datas :=
  C5_sum_conservation_and_score (by decide) (by decide) (by decide) (by decide)
